import Mathlib

/-!
# gonimbusio: key operations of the nimbus.io client (`nimbusapi/key.go`)

A shallow embedding of the key-level operations (`StartConjoined`,
`AbortConjoined`, `FinishConjoined`, `Archive`, `Retrieve`, `DeleteKey`,
`DeleteVersion`) together with the pieces of the Go standard library they
rely on (`net/url` escaping and query encoding, decimal formatting,
`net/http` header insertion).

Go strings are byte sequences.  The collaborator `Requester` is an interface:
its three methods are modelled as state-passing functions over an arbitrary
state type, and every operation records the calls it makes on the requester,
together with their results, in a list of events.
-/

namespace Nimbusapi

set_option maxRecDepth 100000

/-! ## Go strings -/

/-- A Go `string`: an immutable sequence of bytes. -/
abbrev GoString := List UInt8

/-- A Go byte literal such as `'a'`. -/
def byte (c : Char) : UInt8 := c.toNat.toUInt8

/-- The bytes of a Go string literal (Go source text is UTF-8). -/
def lit (s : String) : GoString := s.data.flatMap String.utf8EncodeChar

/-- Go's `<` on strings: lexicographic comparison of the bytes. -/
def strLess : GoString → GoString → Bool
  | [], [] => false
  | [], _ :: _ => true
  | _ :: _, [] => false
  | a :: s, b :: t => if a < b then true else if b < a then false else strLess s t

/-! ## Decimal formatting (`strconv.Itoa`, the verb `%d`) -/

/-- Decimal digits of a natural number, most significant first. -/
def formatUint (n : Nat) : GoString := (Nat.toDigits 10 n).map byte

/-- Go's `strconv.Itoa`, also what `fmt.Sprintf` prints for `%d`: a minus
sign for a negative number, then the decimal digits of the magnitude. -/
def Itoa (i : Int) : GoString :=
  if i < 0 then byte '-' :: formatUint i.natAbs else formatUint i.toNat

/-- Width of Go's `int` (a 64-bit platform). -/
def intSize : Nat := 64

/-- Wrap-around of signed `int` arithmetic: the representative of `x` modulo
`2 ^ intSize` in the range of `int`. -/
def wrapInt (x : Int) : Int :=
  (x + 2 ^ (intSize - 1)) % 2 ^ intSize - 2 ^ (intSize - 1)

/-! ## `net/url`: `QueryEscape` and `Values` -/

/-- The table `upperhex` of `net/url`. -/
def upperhex : GoString := lit "0123456789ABCDEF"

/-- Go's `shouldEscape(c, encodeQueryComponent)` of `net/url`: letters, digits
and the marks `-`, `_`, `.`, `~` are kept, the reserved characters are escaped
in a query component, and so is everything else. -/
def shouldEscape (c : UInt8) : Bool :=
  if (byte 'a' ≤ c && c ≤ byte 'z') || (byte 'A' ≤ c && c ≤ byte 'Z') ||
      (byte '0' ≤ c && c ≤ byte '9') then
    false
  else if c = byte '-' || c = byte '_' || c = byte '.' || c = byte '~' then
    false
  else if c = byte '$' || c = byte '&' || c = byte '+' || c = byte ',' ||
      c = byte '/' || c = byte ':' || c = byte ';' || c = byte '=' ||
      c = byte '?' || c = byte '@' then
    true
  else
    true

/-- First loop of `escape(s, encodeQueryComponent)`: the pair
`(spaceCount, hexCount)`. -/
def countEscapes : GoString → Nat × Nat
  | [] => (0, 0)
  | c :: s =>
    let (spaceCount, hexCount) := countEscapes s
    if shouldEscape c then
      if c = byte ' ' then (spaceCount + 1, hexCount) else (spaceCount, hexCount + 1)
    else
      (spaceCount, hexCount)

/-- Second loop of `escape(s, encodeQueryComponent)`: a space becomes `+`, a
byte to escape becomes `%` and two upper-case hex digits, any other byte is
copied. -/
def escapeLoop : GoString → GoString
  | [] => []
  | c :: s =>
    if c = byte ' ' then
      byte '+' :: escapeLoop s
    else if shouldEscape c then
      byte '%' :: upperhex.getD (c >>> 4).toNat 0 :: upperhex.getD (c &&& 15).toNat 0 ::
        escapeLoop s
    else
      c :: escapeLoop s

/-- Go's `url.QueryEscape`: `escape(s, encodeQueryComponent)`, which returns
`s` itself when no byte needs escaping. -/
def QueryEscape (s : GoString) : GoString :=
  let (spaceCount, hexCount) := countEscapes s
  if spaceCount = 0 ∧ hexCount = 0 then s else escapeLoop s

/-- Go's `url.Values`, a `map[string][]string`: the keys are distinct. -/
abbrev Values := List (GoString × List GoString)

/-- Map lookup `v[key]`: the zero value (no values) for a missing key. -/
def Values.index (v : Values) (key : GoString) : List GoString :=
  match v with
  | [] => []
  | (k, vs) :: rest => if k = key then vs else Values.index rest key

/-- Go's `Values.Set`: `v[key] = []string{value}`. -/
def Values.Set (v : Values) (key value : GoString) : Values :=
  match v with
  | [] => [(key, [value])]
  | (k, vs) :: rest =>
    if k = key then (k, [value]) :: rest else (k, vs) :: Values.Set rest key value

/-- Go's `Values.Add`: `v[key] = append(v[key], value)`. -/
def Values.Add (v : Values) (key value : GoString) : Values :=
  match v with
  | [] => [(key, [value])]
  | (k, vs) :: rest =>
    if k = key then (k, vs ++ [value]) :: rest else (k, vs) :: Values.Add rest key value

/-- Insertion of a string into a sorted list of strings. -/
def insertSorted (k : GoString) : List GoString → List GoString
  | [] => [k]
  | x :: xs => if strLess x k then x :: insertSorted k xs else k :: x :: xs

/-- Go's `sort.Strings`: the keys in increasing order. -/
def sortStrings : List GoString → List GoString
  | [] => []
  | k :: ks => insertSorted k (sortStrings ks)

/-- Go's `Values.Encode`: the keys in sorted order, each value written as
`key=value` with both sides escaped, the pairs separated by `&`. -/
def Values.Encode (v : Values) : GoString :=
  let keys := sortStrings (v.map Prod.fst)
  keys.foldl
    (fun buf k =>
      let vs := Values.index v k
      let keyEscaped := QueryEscape k
      vs.foldl
        (fun buf value =>
          let buf := if buf.length > 0 then buf ++ [byte '&'] else buf
          buf ++ keyEscaped ++ [byte '='] ++ QueryEscape value)
        buf)
    []

/-! ## `net/http`: headers, requests, responses -/

/-- The token bytes of a header field name (`validHeaderFieldByte` of
`net/textproto`): letters, digits and the punctuation of an RFC 7230 token. -/
def validHeaderFieldByte (c : UInt8) : Bool :=
  (byte 'a' ≤ c && c ≤ byte 'z') || (byte 'A' ≤ c && c ≤ byte 'Z') ||
  (byte '0' ≤ c && c ≤ byte '9') ||
  c = byte '!' || c = byte '#' || c = byte '$' || c = byte '%' || c = byte '&' ||
  c = 39 || c = byte '*' || c = byte '+' || c = byte '-' || c = byte '.' ||
  c = byte '^' || c = byte '_' || c = 96 || c = byte '|' || c = byte '~'

/-- The rewriting loop of `canonicalMIMEHeaderKey`: the first letter and every
letter after a hyphen in upper case, the other letters in lower case. -/
def canonicalLoop : Bool → GoString → GoString
  | _, [] => []
  | upper, c :: s =>
    let c :=
      if upper && byte 'a' ≤ c && c ≤ byte 'z' then c - 32
      else if !upper && byte 'A' ≤ c && c ≤ byte 'Z' then c + 32
      else c
    c :: canonicalLoop (c = byte '-') s

/-- Go's `textproto.CanonicalMIMEHeaderKey`: a name made of token bytes is put
in canonical form, any other name is returned unchanged. -/
def CanonicalMIMEHeaderKey (s : GoString) : GoString :=
  if s.all validHeaderFieldByte then canonicalLoop true s else s

/-- Go's `http.Header`, a `map[string][]string`. -/
abbrev Header := Values

/-- Go's `Header.Add`: append the value under the canonical form of the key. -/
def Header.Add (h : Header) (key value : GoString) : Header :=
  Values.Add h (CanonicalMIMEHeaderKey key) value

/-- Go's `Header.Values`: the values stored under the canonical form of the key. -/
def Header.Values (h : Header) (key : GoString) : List GoString :=
  Values.index h (CanonicalMIMEHeaderKey key)

/-- Modelled from the spec: the type `HTTPError` is declared outside the
sources at hand; it is "(status code, diagnostic message)", built in `key.go`
as `HTTPError{response.StatusCode, fmt.Sprintf(...)}`.  The other
constructors are the remaining dynamic types of a Go `error` met here: the
value of `fmt.Errorf`, and an error handed over by a collaborator (transport,
body reader, JSON decoder). -/
inductive GoError where
  | HTTPError (StatusCode : Int) (Message : GoString)
  | Errorf (message : GoString)
  | External (description : GoString)
  deriving DecidableEq, Repr

/-- Whether the dynamic type of an error is `HTTPError`. -/
def GoError.isHTTPError : GoError → Bool
  | GoError.HTTPError _ _ => true
  | _ => false

/-- The outcome `(value, err)` of a fallible library or collaborator call. -/
inductive Result (α : Type) where
  | ok (value : α)
  | error (err : GoError)
  deriving DecidableEq, Repr

/-- An `*http.Request` as far as the operations touch it. -/
structure Request where
  Method : GoString
  URL : GoString
  Header : Header
  ContentLength : Int
  Body : Option GoString
  deriving DecidableEq, Repr

/-- An `io.ReadCloser` response body: what `ioutil.ReadAll` yields on it, and
what the verb `%s` prints for it. -/
structure ReadCloser where
  ReadAll : Result GoString
  Format : GoString
  deriving DecidableEq, Repr

/-- An `*http.Response` as far as the operations read it. -/
structure Response where
  StatusCode : Int
  ContentLength : Int
  Body : ReadCloser
  deriving DecidableEq, Repr

/-- Constant `http.StatusOK`. -/
def StatusOK : Int := 200

/-- Constant `http.StatusPartialContent`. -/
def StatusPartialContent : Int := 206

/-- Modelled from the spec: the interface `Requester` is declared outside the
sources at hand; it has `CollectionHostName(collectionName) -> hostname`,
`CreateRequest(method, host, path, bodyReader) -> request, error` and
`Do(request) -> response, error`.  A method may read and change the state of
the requester and of the network, an arbitrary type `σ`. -/
structure Requester (σ : Type) where
  CollectionHostName : σ → GoString → GoString × σ
  CreateRequest :
    σ → GoString → GoString → GoString → Option GoString → Result Request × σ
  Do : σ → Request → Result Response × σ

/-- A call made on the requester, with its arguments and its result. -/
inductive Event where
  | CollectionHostName (collectionName : GoString) (hostName : GoString)
  | CreateRequest (method hostName path : GoString) (body : Option GoString)
      (result : Result Request)
  | Do (request : Request) (result : Result Response)
  deriving DecidableEq, Repr

/-- The state of the requester and the calls made on it so far, oldest first. -/
structure World (σ : Type) where
  state : σ
  events : List Event

/-- The call `requester.CollectionHostName(collectionName)`, recorded. -/
def callCollectionHostName {σ : Type} (requester : Requester σ) (w : World σ)
    (collectionName : GoString) : GoString × World σ :=
  let r := requester.CollectionHostName w.state collectionName
  (r.1, ⟨r.2, w.events ++ [Event.CollectionHostName collectionName r.1]⟩)

/-- The call `requester.CreateRequest(method, hostName, path, body)`, recorded. -/
def callCreateRequest {σ : Type} (requester : Requester σ) (w : World σ)
    (method hostName path : GoString) (body : Option GoString) : Result Request × World σ :=
  let r := requester.CreateRequest w.state method hostName path body
  (r.1, ⟨r.2, w.events ++ [Event.CreateRequest method hostName path body r.1]⟩)

/-- The call `requester.Do(request)`, recorded. -/
def callDo {σ : Type} (requester : Requester σ) (w : World σ) (request : Request) :
    Result Response × World σ :=
  let r := requester.Do w.state request
  (r.1, ⟨r.2, w.events ++ [Event.Do request r.1]⟩)

/-- The decoder `json.Unmarshal` of `encoding/json` at the two target types
used in `key.go`, `map[string]string` and `map[string]bool`.  The library is
not part of the repository: its behaviour is a parameter. -/
structure Json where
  UnmarshalStringMap : GoString → Result (List (GoString × GoString))
  UnmarshalBoolMap : GoString → Result (List (GoString × Bool))

/-- Indexing `m[key]` of a `map[string]string`: `""` for a missing key. -/
def indexString (m : List (GoString × GoString)) (key : GoString) : GoString :=
  match m with
  | [] => lit ""
  | (k, v) :: rest => if k = key then v else indexString rest key

/-- Indexing `m[key]` of a `map[string]bool`: `false` for a missing key. -/
def indexBool (m : List (GoString × Bool)) (key : GoString) : Bool :=
  match m with
  | [] => false
  | (k, v) :: rest => if k = key then v else indexBool rest key

/-! ## The operations of `key.go`

Every operation takes the requester and the world it runs in, and returns its
Go results together with the world it leaves.  The calls on the requester are
the only effects recorded; what follows `requester.Do` is a function of the
response alone.  The deferred `response.Body.Close()` changes no result and is
left out. -/

/-- A requester in state `s` on which no call has been made yet. -/
def World.fresh {σ : Type} (s : σ) : World σ := ⟨s, []⟩

/-- The diagnostic of an `HTTPError`:
`fmt.Sprintf("<METHOD> %s %s failed %s", hostName, path, response.Body)`. -/
def failedMessage (method hostName path : GoString) (response : Response) : GoString :=
  method ++ lit " " ++ hostName ++ lit " " ++ path ++ lit " failed " ++ response.Body.Format

/-- Function `StartConjoined` starts a conjoined archive, returning the identifier. -/
def StartConjoined {σ : Type} (json : Json) (requester : Requester σ) (w : World σ)
    (collectionName key : GoString) : (GoString × Option GoError) × World σ :=
  let method := lit "POST"
  let host := callCollectionHostName requester w collectionName
  let hostName := host.1
  let values := Values.Set [] (lit "action") (lit "start")
  let path := lit "/conjoined/" ++ QueryEscape key ++ lit "?" ++ Values.Encode values
  let created := callCreateRequest requester host.2 method hostName path none
  match created.1 with
  | Result.error err => ((lit "", some err), created.2)
  | Result.ok request =>
    let done := callDo requester created.2 request
    (match done.1 with
      | Result.error err => (lit "", some err)
      | Result.ok response =>
        if response.StatusCode ≠ StatusOK then
          (lit "", some (GoError.HTTPError response.StatusCode
            (failedMessage (lit "POST") hostName path response)))
        else
          match response.Body.ReadAll with
          | Result.error err => (lit "", some err)
          | Result.ok responseBody =>
            match json.UnmarshalStringMap responseBody with
            | Result.error err => (lit "", some err)
            | Result.ok conjoinedMap =>
              (indexString conjoinedMap (lit "conjoined_identifier"), none),
      done.2)

/-- Function `AbortConjoined` aborts a conjoined archive. -/
def AbortConjoined {σ : Type} (json : Json) (requester : Requester σ) (w : World σ)
    (collectionName key conjoinedIdentifier : GoString) : Option GoError × World σ :=
  let method := lit "POST"
  let host := callCollectionHostName requester w collectionName
  let hostName := host.1
  let values := Values.Set (Values.Set [] (lit "action") (lit "abort"))
    (lit "conjoined_identifier") conjoinedIdentifier
  let path := lit "/conjoined/" ++ QueryEscape key ++ lit "?" ++ Values.Encode values
  let created := callCreateRequest requester host.2 method hostName path none
  match created.1 with
  | Result.error err => (some err, created.2)
  | Result.ok request =>
    let done := callDo requester created.2 request
    (match done.1 with
      | Result.error err => some err
      | Result.ok response =>
        if response.StatusCode ≠ StatusOK then
          some (GoError.HTTPError response.StatusCode
            (failedMessage (lit "POST") hostName path response))
        else
          match response.Body.ReadAll with
          | Result.error err => some err
          | Result.ok responseBody =>
            match json.UnmarshalBoolMap responseBody with
            | Result.error err => some err
            | Result.ok conjoinedMap =>
              if !indexBool conjoinedMap (lit "success") then
                some (GoError.Errorf (lit "conjoined action=abort returned false"))
              else
                none,
      done.2)

/-- Function `FinishConjoined` marks a conjoined archive as completed. -/
def FinishConjoined {σ : Type} (json : Json) (requester : Requester σ) (w : World σ)
    (collectionName key conjoinedIdentifier : GoString) : Option GoError × World σ :=
  let method := lit "POST"
  let host := callCollectionHostName requester w collectionName
  let hostName := host.1
  let values := Values.Set (Values.Set [] (lit "action") (lit "finish"))
    (lit "conjoined_identifier") conjoinedIdentifier
  let path := lit "/conjoined/" ++ QueryEscape key ++ lit "?" ++ Values.Encode values
  let created := callCreateRequest requester host.2 method hostName path none
  match created.1 with
  | Result.error err => (some err, created.2)
  | Result.ok request =>
    let done := callDo requester created.2 request
    (match done.1 with
      | Result.error err => some err
      | Result.ok response =>
        if response.StatusCode ≠ StatusOK then
          some (GoError.HTTPError response.StatusCode
            (failedMessage (lit "POST") hostName path response))
        else
          match response.Body.ReadAll with
          | Result.error err => some err
          | Result.ok responseBody =>
            match json.UnmarshalBoolMap responseBody with
            | Result.error err => some err
            | Result.ok conjoinedMap =>
              if !indexBool conjoinedMap (lit "success") then
                some (GoError.Errorf (lit "conjoined action=finish returned false"))
              else
                none,
      done.2)

/-- Type `ConjoinedParams` contains optional arguments to `Archive`. -/
structure ConjoinedParams where
  ConjoinedIdentifier : GoString
  ConjoinedPart : Int
  deriving DecidableEq, Repr

/-- Function `Archive` uploads the data from `requestBody`; `conjoinedParams`
is a pointer, `none` when nil. -/
def Archive {σ : Type} (json : Json) (requester : Requester σ) (w : World σ)
    (collectionName key : GoString) (conjoinedParams : Option ConjoinedParams)
    (contentLength : Int) (requestBody : Option GoString) :
    (GoString × Option GoError) × World σ :=
  let method := lit "POST"
  let host := callCollectionHostName requester w collectionName
  let hostName := host.1
  let path :=
    match conjoinedParams with
    | some params =>
      if params.ConjoinedIdentifier ≠ lit "" then
        let values := Values.Set (Values.Set [] (lit "conjoined_identifier")
          params.ConjoinedIdentifier) (lit "conjoined_part") (Itoa params.ConjoinedPart)
        lit "/data/" ++ QueryEscape key ++ lit "?" ++ Values.Encode values
      else
        lit "/data/" ++ QueryEscape key
    | none => lit "/data/" ++ QueryEscape key
  let created := callCreateRequest requester host.2 method hostName path requestBody
  match created.1 with
  | Result.error err => ((lit "", some err), created.2)
  | Result.ok request =>
    let request := { request with ContentLength := contentLength }
    let done := callDo requester created.2 request
    (match done.1 with
      | Result.error err => (lit "", some err)
      | Result.ok response =>
        if response.StatusCode ≠ StatusOK then
          (lit "", some (GoError.HTTPError response.StatusCode
            (failedMessage (lit "POST") hostName path response)))
        else
          match response.Body.ReadAll with
          | Result.error err => (lit "", some err)
          | Result.ok responseBody =>
            match json.UnmarshalStringMap responseBody with
            | Result.error err => (lit "", some err)
            | Result.ok versionMap =>
              (indexString versionMap (lit "version_identifier"), none),
      done.2)

/-- Type `RetrieveParams` contains optional arguments to `Retrieve`.  The two
`interface{}` fields are `none` when nil, else some dynamic value (kept as its
printed form). -/
structure RetrieveParams where
  VersionID : GoString
  SliceOffset : Int
  SliceSize : Int
  ModifiedSince : Option GoString
  UnmodifiedSince : Option GoString
  deriving DecidableEq, Repr

/-- Function `Retrieve` fetches data from nimbus.io; the first component of
the result is the returned `io.ReadCloser`, `none` when nil.  The sum
`SliceOffset+SliceSize-1` is computed in `int`, and `int64(SliceSize)` is
`SliceSize` itself. -/
def Retrieve {σ : Type} (requester : Requester σ) (w : World σ)
    (collectionName key : GoString) (retrieveParams : RetrieveParams) :
    (Option ReadCloser × Option GoError) × World σ :=
  if retrieveParams.ModifiedSince ≠ none then
    ((none, some (GoError.Errorf (lit "not implemented: retrieveParams.ModifiedSince"))), w)
  else if retrieveParams.UnmodifiedSince ≠ none then
    ((none, some (GoError.Errorf (lit "not implemented: retrieveParams.UnmodifiedSince"))), w)
  else
    let method := lit "GET"
    let host := callCollectionHostName requester w collectionName
    let hostName := host.1
    let path :=
      if retrieveParams.VersionID = lit "" then
        lit "/data/" ++ QueryEscape key
      else
        let values := Values.Add [] (lit "version_identifier") retrieveParams.VersionID
        lit "/data/" ++ QueryEscape key ++ lit "?" ++ Values.Encode values
    let created := callCreateRequest requester host.2 method hostName path none
    match created.1 with
    | Result.error err => ((none, some err), created.2)
    | Result.ok request =>
      let sliced :=
        if retrieveParams.SliceOffset > 0 ∨ retrieveParams.SliceSize > 0 then
          let rangeArg :=
            if retrieveParams.SliceSize > 0 then
              lit "bytes=" ++ Itoa retrieveParams.SliceOffset ++ lit "-" ++
                Itoa (wrapInt (wrapInt (retrieveParams.SliceOffset + retrieveParams.SliceSize) - 1))
            else
              lit "bytes=" ++ Itoa retrieveParams.SliceOffset ++ lit "-"
          ({ request with Header := Header.Add request.Header (lit "range") rangeArg },
            StatusPartialContent)
        else
          (request, StatusOK)
      let request := sliced.1
      let successfulStatusCode := sliced.2
      let done := callDo requester created.2 request
      (match done.1 with
        | Result.error err => (none, some err)
        | Result.ok response =>
          if response.StatusCode ≠ successfulStatusCode then
            (none, some (GoError.HTTPError response.StatusCode
              (failedMessage (lit "GET") hostName path response)))
          else if retrieveParams.SliceSize > 0 ∧ response.ContentLength ≠ -1 ∧
              response.ContentLength ≠ retrieveParams.SliceSize then
            (none, some (GoError.Errorf (lit "content length mismatch: expected " ++
              Itoa retrieveParams.SliceSize ++ lit " found " ++ Itoa response.ContentLength)))
          else
            (some response.Body, none),
        done.2)

/-- Function `DeleteVersion` deletes a specific version of a key. -/
def DeleteVersion {σ : Type} (json : Json) (requester : Requester σ) (w : World σ)
    (collectionName key versionIdentifier : GoString) : Option GoError × World σ :=
  let method := lit "DELETE"
  let host := callCollectionHostName requester w collectionName
  let hostName := host.1
  let path :=
    if versionIdentifier = lit "" then
      lit "/data/" ++ QueryEscape key
    else
      let values := Values.Add [] (lit "version") versionIdentifier
      lit "/data/" ++ QueryEscape key ++ lit "?" ++ Values.Encode values
  let created := callCreateRequest requester host.2 method hostName path none
  match created.1 with
  | Result.error err => (some err, created.2)
  | Result.ok request =>
    let done := callDo requester created.2 request
    (match done.1 with
      | Result.error err => some err
      | Result.ok response =>
        if response.StatusCode ≠ StatusOK then
          some (GoError.HTTPError response.StatusCode
            (failedMessage (lit "DELETE") hostName path response))
        else
          match response.Body.ReadAll with
          | Result.error err => some err
          | Result.ok responseBody =>
            match json.UnmarshalBoolMap responseBody with
            | Result.error err => some err
            | Result.ok resultMap =>
              if !indexBool resultMap (lit "success") then
                some (GoError.Errorf (lit "unexpected \x27false\x27 for \x27success\x27"))
              else
                none,
      done.2)

/-- Function `DeleteKey` deletes a key, hiding all versions. -/
def DeleteKey {σ : Type} (json : Json) (requester : Requester σ) (w : World σ)
    (collectionName key : GoString) : Option GoError × World σ :=
  DeleteVersion json requester w collectionName key (lit "")

/-! ## Reading the record of calls -/

/-- The `(method, hostName, path, body)` of every `CreateRequest` call. -/
def createRequestCalls : List Event → List (GoString × GoString × GoString × Option GoString)
  | [] => []
  | Event.CreateRequest method hostName path body _ :: rest =>
    (method, hostName, path, body) :: createRequestCalls rest
  | _ :: rest => createRequestCalls rest

/-- The request of every `Do` call. -/
def doCalls : List Event → List Request
  | [] => []
  | Event.Do request _ :: rest => request :: doCalls rest
  | _ :: rest => doCalls rest

/-- Whether an operation failed with an error of dynamic type `HTTPError`. -/
def failsWithHTTPError : Option GoError → Bool
  | some err => err.isHTTPError
  | none => false

/-- The answer of the requester to a `CreateRequest` call made right after it
was asked, in state `s`, for the host of the collection. -/
def createdBy {σ : Type} (r : Requester σ) (s : σ) (collectionName method path : GoString)
    (body : Option GoString) : Result Request × σ :=
  r.CreateRequest (r.CollectionHostName s collectionName).2 method
    (r.CollectionHostName s collectionName).1 path body

/-- The answer of the requester to the `Do` call that follows that
`CreateRequest` call. -/
def doneBy {σ : Type} (r : Requester σ) (s : σ) (collectionName method path : GoString)
    (body : Option GoString) (request : Request) : Result Response × σ :=
  r.Do (createdBy r s collectionName method path body).2 request

/-! ## The encoding in the words of the specification -/

/-- An unreserved URL character: a letter, a digit, or one of `-`, `_`, `.`, `~`. -/
def isUnreserved (c : UInt8) : Bool :=
  (byte 'a' ≤ c && c ≤ byte 'z') || (byte 'A' ≤ c && c ≤ byte 'Z') ||
  (byte '0' ≤ c && c ≤ byte '9') ||
  c = byte '-' || c = byte '_' || c = byte '.' || c = byte '~'

/-- The hexadecimal digit (upper case) of a number below sixteen. -/
def hexDigit (n : Nat) : UInt8 :=
  if n < 10 then (48 + n).toUInt8 else (55 + n).toUInt8

/-- A byte written as `%` followed by its two hex digits. -/
def percentByte (c : UInt8) : GoString :=
  [byte '%', hexDigit (c.toNat / 16), hexDigit (c.toNat % 16)]

/-- Percent-encoding as the specification words it: an unreserved byte is
copied, any other byte is replaced by `%` and its two hex digits. -/
def percentEncode (s : GoString) : GoString :=
  s.flatMap (fun c => if isUnreserved c then [c] else percentByte c)

/-- Query-component encoding: as `percentEncode`, except that a space is
written `+`. -/
def queryEncode (s : GoString) : GoString :=
  s.flatMap (fun c =>
    if isUnreserved c then [c] else if c = byte ' ' then [byte '+'] else percentByte c)

/-! ## A sample requester and decoder -/

/-- A sample requester: the host of a collection is `<collection>.nimbus.io`,
`CreateRequest` builds a request for `https://<host><path>` carrying an
`Agent` header, `Do` answers every request with the given result, and the
state counts the calls. -/
def sampleRequester (answer : Result Response) : Requester Nat where
  CollectionHostName := fun n collectionName => (collectionName ++ lit ".nimbus.io", n + 1)
  CreateRequest := fun n method hostName path body =>
    (Result.ok
      { Method := method, URL := lit "https://" ++ hostName ++ path,
        Header := [(lit "Agent", [lit "gonimbusio/1.0"])], ContentLength := 0, Body := body },
      n + 1)
  Do := fun n _ => (answer, n + 1)

/-- A sample decoder knowing a few JSON texts. -/
def sampleJson : Json where
  UnmarshalStringMap := fun body =>
    if body = lit "\x7b\"conjoined_identifier\": \"abc\"\x7d" then
      Result.ok [(lit "conjoined_identifier", lit "abc")]
    else if body = lit "\x7b\x7d" then
      Result.ok []
    else
      Result.error (GoError.External (lit "invalid character"))
  UnmarshalBoolMap := fun body =>
    if body = lit "\x7b\"success\": true\x7d" then
      Result.ok [(lit "success", true)]
    else if body = lit "\x7b\"success\": false\x7d" then
      Result.ok [(lit "success", false)]
    else
      Result.error (GoError.External (lit "invalid character"))

/-- A response with the given status, declared length and body text. -/
def sampleResponse (status length : Int) (body : GoString) : Response :=
  { StatusCode := status, ContentLength := length,
    Body := { ReadAll := Result.ok body, Format := lit "&\x7b\x7d" } }

/-- The request the sample requester creates. -/
def sampleRequest (method url : GoString) (body : Option GoString) : Request :=
  { Method := method, URL := url, Header := [(lit "Agent", [lit "gonimbusio/1.0"])],
    ContentLength := 0, Body := body }

/-! ## Lemmas on strings and escaping -/

theorem lit_empty : lit "" = [] := rfl

theorem byte_ofNat_toNat (c : UInt8) : UInt8.ofNat c.toNat = c := by
  cases c with
  | mk bv => simp [UInt8.ofNat, UInt8.toNat]

theorem shouldEscape_eq_not_isUnreserved (c : UInt8) : shouldEscape c = !isUnreserved c := by
  unfold shouldEscape isUnreserved
  cases (byte 'a' ≤ c && c ≤ byte 'z') || (byte 'A' ≤ c && c ≤ byte 'Z') ||
      (byte '0' ≤ c && c ≤ byte '9') <;>
    cases decide (c = byte '-') <;> cases decide (c = byte '_') <;>
    cases decide (c = byte '.') <;> cases decide (c = byte '~') <;> simp

theorem upperhex_high_aux : ∀ n, n < 256 →
    upperhex.getD ((UInt8.ofNat n) >>> 4).toNat 0 = hexDigit ((UInt8.ofNat n).toNat / 16) := by
  decide

theorem upperhex_low_aux : ∀ n, n < 256 →
    upperhex.getD ((UInt8.ofNat n) &&& 15).toNat 0 = hexDigit ((UInt8.ofNat n).toNat % 16) := by
  decide

theorem upperhex_high (c : UInt8) :
    upperhex.getD (c >>> 4).toNat 0 = hexDigit (c.toNat / 16) := by
  have h := upperhex_high_aux c.toNat c.toBitVec.isLt
  rwa [byte_ofNat_toNat] at h

theorem upperhex_low (c : UInt8) :
    upperhex.getD (c &&& 15).toNat 0 = hexDigit (c.toNat % 16) := by
  have h := upperhex_low_aux c.toNat c.toBitVec.isLt
  rwa [byte_ofNat_toNat] at h

theorem space_not_unreserved : isUnreserved (byte ' ') = false := by decide

theorem escapeLoop_eq_queryEncode (s : GoString) : escapeLoop s = queryEncode s := by
  induction s with
  | nil => rfl
  | cons c s ih =>
    have hq : queryEncode (c :: s) =
        (if isUnreserved c then [c] else if c = byte ' ' then [byte '+'] else percentByte c)
          ++ queryEncode s := by
      simp [queryEncode, List.flatMap_cons]
    rw [hq, escapeLoop, ih]
    by_cases hsp : c = byte ' '
    · subst hsp
      simp [space_not_unreserved]
    · cases hu : isUnreserved c
      · simp only [hsp, if_false, shouldEscape_eq_not_isUnreserved, hu, Bool.not_false,
          if_true, upperhex_high, upperhex_low, percentByte, Bool.false_eq_true]
        rfl
      · simp [hsp, shouldEscape_eq_not_isUnreserved, hu]

theorem escapeLoop_eq_self (s : GoString) (h : countEscapes s = (0, 0)) : escapeLoop s = s := by
  induction s with
  | nil => rfl
  | cons c s ih =>
    rw [countEscapes] at h
    rcases hc : countEscapes s with ⟨spaceCount, hexCount⟩
    rw [hc] at h
    simp only at h
    cases he : shouldEscape c
    · simp only [he, Bool.false_eq_true, if_false] at h
      have hsp : c ≠ byte ' ' := by
        intro hsp
        subst hsp
        simp [shouldEscape_eq_not_isUnreserved, space_not_unreserved] at he
      rw [escapeLoop, ih (hc.trans h)]
      simp [hsp, he]
    · simp only [he, if_true] at h
      split at h <;> simp at h

theorem QueryEscape_eq_escapeLoop (s : GoString) : QueryEscape s = escapeLoop s := by
  unfold QueryEscape
  rcases hc : countEscapes s with ⟨spaceCount, hexCount⟩
  simp only
  split
  · rename_i h
    obtain ⟨h1, h2⟩ := h
    subst h1 h2
    exact (escapeLoop_eq_self s hc).symm
  · rfl

theorem QueryEscape_eq_queryEncode (s : GoString) : QueryEscape s = queryEncode s := by
  rw [QueryEscape_eq_escapeLoop, escapeLoop_eq_queryEncode]

theorem queryEncode_of_unreserved (s : GoString) (h : ∀ c ∈ s, isUnreserved c = true) :
    queryEncode s = s := by
  induction s with
  | nil => rfl
  | cons c s ih =>
    have hc : isUnreserved c = true := h c (List.mem_cons_self c s)
    have hs : queryEncode s = s := ih (fun d hd => h d (List.mem_cons_of_mem c hd))
    have hq : queryEncode (c :: s) =
        (if isUnreserved c then [c] else if c = byte ' ' then [byte '+'] else percentByte c)
          ++ queryEncode s := by
      simp [queryEncode, List.flatMap_cons]
    rw [hq, hs, hc]
    rfl

theorem QueryEscape_of_unreserved (s : GoString) (h : ∀ c ∈ s, isUnreserved c = true) :
    QueryEscape s = s := by
  rw [QueryEscape_eq_queryEncode, queryEncode_of_unreserved s h]

/-! ## Lemmas on decimal formatting and `int` arithmetic -/

theorem digitChar_unreserved : ∀ d, d < 10 → isUnreserved (byte (Nat.digitChar d)) = true := by
  decide

theorem toDigitsCore_unreserved (fuel : Nat) : ∀ (n : Nat) (ds : List Char),
    (∀ c ∈ ds, isUnreserved (byte c) = true) →
    ∀ c ∈ Nat.toDigitsCore 10 fuel n ds, isUnreserved (byte c) = true := by
  induction fuel with
  | zero => intro n ds h c hc; exact h c (by simpa [Nat.toDigitsCore] using hc)
  | succ fuel ih =>
    intro n ds h c hc
    have hd : ∀ c ∈ Nat.digitChar (n % 10) :: ds, isUnreserved (byte c) = true := by
      intro c hc
      rcases List.mem_cons.mp hc with rfl | hc
      · exact digitChar_unreserved _ (Nat.mod_lt _ (by decide))
      · exact h c hc
    rw [Nat.toDigitsCore] at hc
    split at hc
    · exact hd c hc
    · exact ih _ _ hd c hc

theorem formatUint_unreserved (n : Nat) : ∀ c ∈ formatUint n, isUnreserved c = true := by
  intro c hc
  simp only [formatUint, List.mem_map] at hc
  obtain ⟨d, hd, rfl⟩ := hc
  exact toDigitsCore_unreserved _ _ _ (by simp) d hd

theorem Itoa_unreserved (i : Int) : ∀ c ∈ Itoa i, isUnreserved c = true := by
  intro c hc
  unfold Itoa at hc
  split at hc
  · rcases List.mem_cons.mp hc with rfl | hc
    · decide
    · exact formatUint_unreserved _ c hc
  · exact formatUint_unreserved _ c hc

theorem QueryEscape_Itoa (i : Int) : QueryEscape (Itoa i) = Itoa i :=
  QueryEscape_of_unreserved _ (Itoa_unreserved i)

theorem wrapInt_of_inRange (x : Int) (h1 : -(2 ^ 63) ≤ x) (h2 : x < 2 ^ 63) : wrapInt x = x := by
  unfold wrapInt intSize
  norm_num at h1 h2 ⊢
  omega

theorem wrapInt_sub_one (x : Int) : wrapInt (wrapInt x - 1) = wrapInt (x - 1) := by
  unfold wrapInt intSize
  norm_num
  omega

/-! ## Lemmas on `Values` -/

theorem Values.index_Add (h : Values) (key value : GoString) :
    Values.index (Values.Add h key value) key = Values.index h key ++ [value] := by
  induction h with
  | nil => simp [Values.Add, Values.index]
  | cons e rest ih =>
    obtain ⟨k, vs⟩ := e
    by_cases hk : k = key
    · simp [Values.Add, Values.index, hk]
    · simp [Values.Add, Values.index, hk, ih]

theorem Values.Encode_one (k v : GoString) :
    Values.Encode [(k, [v])] = QueryEscape k ++ [byte '='] ++ QueryEscape v := by
  simp [Values.Encode, sortStrings, insertSorted, Values.index]

theorem Values.Encode_two (k1 k2 v1 v2 : GoString) (hne : k1 ≠ k2)
    (hlt : strLess k2 k1 = false) :
    Values.Encode [(k1, [v1]), (k2, [v2])] =
      QueryEscape k1 ++ [byte '='] ++ QueryEscape v1 ++ [byte '&'] ++
        QueryEscape k2 ++ [byte '='] ++ QueryEscape v2 := by
  simp [Values.Encode, sortStrings, insertSorted, Values.index, hlt, hne]

/-! ## The request paths -/

theorem startPath (key : GoString) :
    lit "/conjoined/" ++ QueryEscape key ++ lit "?" ++
        Values.Encode (Values.Set [] (lit "action") (lit "start")) =
      lit "/conjoined/" ++ QueryEscape key ++ lit "?action=start" := by
  have h : lit "?" ++ Values.Encode (Values.Set [] (lit "action") (lit "start")) =
      lit "?action=start" := by decide
  rw [List.append_assoc, h]

theorem actionPath (action key conjoinedIdentifier : GoString)
    (hne : lit "action" ≠ lit "conjoined_identifier")
    (hlt : strLess (lit "conjoined_identifier") (lit "action") = false) :
    lit "/conjoined/" ++ QueryEscape key ++ lit "?" ++
        Values.Encode (Values.Set (Values.Set [] (lit "action") action)
          (lit "conjoined_identifier") conjoinedIdentifier) =
      lit "/conjoined/" ++ QueryEscape key ++
        (lit "?" ++ QueryEscape (lit "action") ++ [byte '='] ++ QueryEscape action ++
          [byte '&'] ++ QueryEscape (lit "conjoined_identifier") ++ [byte '=']) ++
        QueryEscape conjoinedIdentifier := by
  have hs : Values.Set (Values.Set [] (lit "action") action)
      (lit "conjoined_identifier") conjoinedIdentifier =
      [(lit "action", [action]), (lit "conjoined_identifier", [conjoinedIdentifier])] := by
    simp [Values.Set, hne]
  rw [hs, Values.Encode_two _ _ _ _ hne hlt]
  simp only [List.append_assoc]

theorem abortPath (key conjoinedIdentifier : GoString) :
    lit "/conjoined/" ++ QueryEscape key ++ lit "?" ++
        Values.Encode (Values.Set (Values.Set [] (lit "action") (lit "abort"))
          (lit "conjoined_identifier") conjoinedIdentifier) =
      lit "/conjoined/" ++ QueryEscape key ++ lit "?action=abort&conjoined_identifier=" ++
        QueryEscape conjoinedIdentifier := by
  rw [actionPath _ _ _ (by decide) (by decide)]
  have h : lit "?" ++ QueryEscape (lit "action") ++ [byte '='] ++ QueryEscape (lit "abort") ++
      [byte '&'] ++ QueryEscape (lit "conjoined_identifier") ++ [byte '='] =
      lit "?action=abort&conjoined_identifier=" := by decide
  rw [h]

theorem finishPath (key conjoinedIdentifier : GoString) :
    lit "/conjoined/" ++ QueryEscape key ++ lit "?" ++
        Values.Encode (Values.Set (Values.Set [] (lit "action") (lit "finish"))
          (lit "conjoined_identifier") conjoinedIdentifier) =
      lit "/conjoined/" ++ QueryEscape key ++ lit "?action=finish&conjoined_identifier=" ++
        QueryEscape conjoinedIdentifier := by
  rw [actionPath _ _ _ (by decide) (by decide)]
  have h : lit "?" ++ QueryEscape (lit "action") ++ [byte '='] ++ QueryEscape (lit "finish") ++
      [byte '&'] ++ QueryEscape (lit "conjoined_identifier") ++ [byte '='] =
      lit "?action=finish&conjoined_identifier=" := by decide
  rw [h]

theorem archivePath (key conjoinedIdentifier : GoString) (part : Int) :
    lit "/data/" ++ QueryEscape key ++ lit "?" ++
        Values.Encode (Values.Set (Values.Set [] (lit "conjoined_identifier")
          conjoinedIdentifier) (lit "conjoined_part") (Itoa part)) =
      lit "/data/" ++ QueryEscape key ++ lit "?conjoined_identifier=" ++
        QueryEscape conjoinedIdentifier ++ lit "&conjoined_part=" ++ Itoa part := by
  have hne : lit "conjoined_identifier" ≠ lit "conjoined_part" := by decide
  have hs : Values.Set (Values.Set [] (lit "conjoined_identifier") conjoinedIdentifier)
      (lit "conjoined_part") (Itoa part) =
      [(lit "conjoined_identifier", [conjoinedIdentifier]),
        (lit "conjoined_part", [Itoa part])] := by
    simp [Values.Set, hne]
  have h1 : lit "?" ++ QueryEscape (lit "conjoined_identifier") ++ [byte '='] =
      lit "?conjoined_identifier=" := by decide
  have h2 : [byte '&'] ++ QueryEscape (lit "conjoined_part") ++ [byte '='] =
      lit "&conjoined_part=" := by decide
  rw [hs, Values.Encode_two _ _ _ _ hne (by decide), QueryEscape_Itoa, ← h1, ← h2]
  simp only [List.append_assoc]

theorem versionPath (name key versionIdentifier : GoString) :
    lit "/data/" ++ QueryEscape key ++ lit "?" ++
        Values.Encode (Values.Add [] name versionIdentifier) =
      lit "/data/" ++ QueryEscape key ++ (lit "?" ++ QueryEscape name ++ [byte '=']) ++
        QueryEscape versionIdentifier := by
  have hs : Values.Add [] name versionIdentifier = [(name, [versionIdentifier])] := rfl
  rw [hs, Values.Encode_one]
  simp only [List.append_assoc]

theorem retrievePath (key versionID : GoString) :
    lit "/data/" ++ QueryEscape key ++ lit "?" ++
        Values.Encode (Values.Add [] (lit "version_identifier") versionID) =
      lit "/data/" ++ QueryEscape key ++ lit "?version_identifier=" ++ QueryEscape versionID := by
  rw [versionPath]
  have h : lit "?" ++ QueryEscape (lit "version_identifier") ++ [byte '='] =
      lit "?version_identifier=" := by decide
  rw [h]

theorem deletePath (key versionIdentifier : GoString) :
    lit "/data/" ++ QueryEscape key ++ lit "?" ++
        Values.Encode (Values.Add [] (lit "version") versionIdentifier) =
      lit "/data/" ++ QueryEscape key ++ lit "?version=" ++ QueryEscape versionIdentifier := by
  rw [versionPath]
  have h : lit "?" ++ QueryEscape (lit "version") ++ [byte '='] = lit "?version=" := by decide
  rw [h]

/-! ## What each operation asks of the requester, and what it makes of the response -/

theorem StartConjoined_createRequestCalls {σ : Type} (json : Json) (r : Requester σ) (s : σ)
    (c key : GoString) :
    createRequestCalls (StartConjoined json r (World.fresh s) c key).2.events =
      [(lit "POST", (r.CollectionHostName s c).1,
        lit "/conjoined/" ++ QueryEscape key ++ lit "?action=start", none)] := by
  unfold StartConjoined
  simp only [callCreateRequest, callDo, callCollectionHostName, World.fresh, startPath]
  generalize r.CollectionHostName s c = hn
  generalize r.CreateRequest hn.2 _ _ _ _ = cr
  obtain ⟨cres, s2⟩ := cr
  cases cres <;> simp [createRequestCalls]

theorem StartConjoined_of_do {σ : Type} (json : Json) (r : Requester σ) (s : σ)
    (c key : GoString) (request : Request) (resp : Response)
    (hdo : Event.Do request (Result.ok resp) ∈
      (StartConjoined json r (World.fresh s) c key).2.events) :
    (StartConjoined json r (World.fresh s) c key).1 =
      if resp.StatusCode ≠ StatusOK then
        (lit "", some (GoError.HTTPError resp.StatusCode
          (failedMessage (lit "POST") (r.CollectionHostName s c).1
            (lit "/conjoined/" ++ QueryEscape key ++ lit "?action=start") resp)))
      else
        match resp.Body.ReadAll with
        | Result.error err => (lit "", some err)
        | Result.ok responseBody =>
          match json.UnmarshalStringMap responseBody with
          | Result.error err => (lit "", some err)
          | Result.ok conjoinedMap =>
            (indexString conjoinedMap (lit "conjoined_identifier"), none) := by
  unfold StartConjoined at hdo ⊢
  simp only [callCreateRequest, callDo, callCollectionHostName, World.fresh, startPath] at hdo ⊢
  generalize r.CollectionHostName s c = hn at hdo ⊢
  generalize r.CreateRequest hn.2 _ _ _ _ = cr at hdo ⊢
  obtain ⟨cres, s2⟩ := cr
  cases cres with
  | error e => simp at hdo
  | ok req =>
    simp only at hdo ⊢
    generalize r.Do s2 req = dr at hdo ⊢
    obtain ⟨dres, s3⟩ := dr
    cases dres with
    | error e => simp at hdo
    | ok resp2 =>
      simp at hdo
      obtain ⟨-, rfl⟩ := hdo
      rfl

theorem AbortConjoined_createRequestCalls {σ : Type} (json : Json) (r : Requester σ) (s : σ)
    (c key conjoinedIdentifier : GoString) :
    createRequestCalls
        (AbortConjoined json r (World.fresh s) c key conjoinedIdentifier).2.events =
      [(lit "POST", (r.CollectionHostName s c).1,
        lit "/conjoined/" ++ QueryEscape key ++ lit "?action=abort&conjoined_identifier=" ++
          QueryEscape conjoinedIdentifier, none)] := by
  unfold AbortConjoined
  simp only [callCreateRequest, callDo, callCollectionHostName, World.fresh, abortPath]
  generalize r.CollectionHostName s c = hn
  generalize r.CreateRequest hn.2 _ _ _ _ = cr
  obtain ⟨cres, s2⟩ := cr
  cases cres <;> simp [createRequestCalls]

theorem AbortConjoined_of_do {σ : Type} (json : Json) (r : Requester σ) (s : σ)
    (c key conjoinedIdentifier : GoString) (request : Request) (resp : Response)
    (hdo : Event.Do request (Result.ok resp) ∈
      (AbortConjoined json r (World.fresh s) c key conjoinedIdentifier).2.events) :
    (AbortConjoined json r (World.fresh s) c key conjoinedIdentifier).1 =
      if resp.StatusCode ≠ StatusOK then
        some (GoError.HTTPError resp.StatusCode
          (failedMessage (lit "POST") (r.CollectionHostName s c).1
            (lit "/conjoined/" ++ QueryEscape key ++
              lit "?action=abort&conjoined_identifier=" ++ QueryEscape conjoinedIdentifier)
            resp))
      else
        match resp.Body.ReadAll with
        | Result.error err => some err
        | Result.ok responseBody =>
          match json.UnmarshalBoolMap responseBody with
          | Result.error err => some err
          | Result.ok conjoinedMap =>
            if !indexBool conjoinedMap (lit "success") then
              some (GoError.Errorf (lit "conjoined action=abort returned false"))
            else
              none := by
  unfold AbortConjoined at hdo ⊢
  simp only [callCreateRequest, callDo, callCollectionHostName, World.fresh, abortPath] at hdo ⊢
  generalize r.CollectionHostName s c = hn at hdo ⊢
  generalize r.CreateRequest hn.2 _ _ _ _ = cr at hdo ⊢
  obtain ⟨cres, s2⟩ := cr
  cases cres with
  | error e => simp at hdo
  | ok req =>
    simp only at hdo ⊢
    generalize r.Do s2 req = dr at hdo ⊢
    obtain ⟨dres, s3⟩ := dr
    cases dres with
    | error e => simp at hdo
    | ok resp2 =>
      simp at hdo
      obtain ⟨-, rfl⟩ := hdo
      rfl

theorem FinishConjoined_createRequestCalls {σ : Type} (json : Json) (r : Requester σ) (s : σ)
    (c key conjoinedIdentifier : GoString) :
    createRequestCalls
        (FinishConjoined json r (World.fresh s) c key conjoinedIdentifier).2.events =
      [(lit "POST", (r.CollectionHostName s c).1,
        lit "/conjoined/" ++ QueryEscape key ++ lit "?action=finish&conjoined_identifier=" ++
          QueryEscape conjoinedIdentifier, none)] := by
  unfold FinishConjoined
  simp only [callCreateRequest, callDo, callCollectionHostName, World.fresh, finishPath]
  generalize r.CollectionHostName s c = hn
  generalize r.CreateRequest hn.2 _ _ _ _ = cr
  obtain ⟨cres, s2⟩ := cr
  cases cres <;> simp [createRequestCalls]

theorem FinishConjoined_of_do {σ : Type} (json : Json) (r : Requester σ) (s : σ)
    (c key conjoinedIdentifier : GoString) (request : Request) (resp : Response)
    (hdo : Event.Do request (Result.ok resp) ∈
      (FinishConjoined json r (World.fresh s) c key conjoinedIdentifier).2.events) :
    (FinishConjoined json r (World.fresh s) c key conjoinedIdentifier).1 =
      if resp.StatusCode ≠ StatusOK then
        some (GoError.HTTPError resp.StatusCode
          (failedMessage (lit "POST") (r.CollectionHostName s c).1
            (lit "/conjoined/" ++ QueryEscape key ++
              lit "?action=finish&conjoined_identifier=" ++ QueryEscape conjoinedIdentifier)
            resp))
      else
        match resp.Body.ReadAll with
        | Result.error err => some err
        | Result.ok responseBody =>
          match json.UnmarshalBoolMap responseBody with
          | Result.error err => some err
          | Result.ok conjoinedMap =>
            if !indexBool conjoinedMap (lit "success") then
              some (GoError.Errorf (lit "conjoined action=finish returned false"))
            else
              none := by
  unfold FinishConjoined at hdo ⊢
  simp only [callCreateRequest, callDo, callCollectionHostName, World.fresh, finishPath] at hdo ⊢
  generalize r.CollectionHostName s c = hn at hdo ⊢
  generalize r.CreateRequest hn.2 _ _ _ _ = cr at hdo ⊢
  obtain ⟨cres, s2⟩ := cr
  cases cres with
  | error e => simp at hdo
  | ok req =>
    simp only at hdo ⊢
    generalize r.Do s2 req = dr at hdo ⊢
    obtain ⟨dres, s3⟩ := dr
    cases dres with
    | error e => simp at hdo
    | ok resp2 =>
      simp at hdo
      obtain ⟨-, rfl⟩ := hdo
      rfl

theorem Archive_createRequestCalls {σ : Type} (json : Json) (r : Requester σ) (s : σ)
    (c key : GoString) (conjoinedParams : Option ConjoinedParams) (contentLength : Int)
    (requestBody : Option GoString) :
    createRequestCalls
        (Archive json r (World.fresh s) c key conjoinedParams contentLength
          requestBody).2.events =
      [(lit "POST", (r.CollectionHostName s c).1,
        match conjoinedParams with
        | some params =>
          if params.ConjoinedIdentifier ≠ lit "" then
            lit "/data/" ++ QueryEscape key ++ lit "?conjoined_identifier=" ++
              QueryEscape params.ConjoinedIdentifier ++ lit "&conjoined_part=" ++
              Itoa params.ConjoinedPart
          else
            lit "/data/" ++ QueryEscape key
        | none => lit "/data/" ++ QueryEscape key,
        requestBody)] := by
  unfold Archive
  simp only [callCreateRequest, callDo, callCollectionHostName, World.fresh, archivePath]
  generalize r.CollectionHostName s c = hn
  generalize r.CreateRequest hn.2 _ _ _ _ = cr
  obtain ⟨cres, s2⟩ := cr
  cases cres <;> simp [createRequestCalls]

theorem Archive_of_do {σ : Type} (json : Json) (r : Requester σ) (s : σ)
    (c key : GoString) (conjoinedParams : Option ConjoinedParams) (contentLength : Int)
    (requestBody : Option GoString) (request : Request) (resp : Response)
    (hdo : Event.Do request (Result.ok resp) ∈
      (Archive json r (World.fresh s) c key conjoinedParams contentLength
        requestBody).2.events) :
    ∃ msg, (Archive json r (World.fresh s) c key conjoinedParams contentLength requestBody).1 =
      if resp.StatusCode ≠ StatusOK then
        (lit "", some (GoError.HTTPError resp.StatusCode msg))
      else
        match resp.Body.ReadAll with
        | Result.error err => (lit "", some err)
        | Result.ok responseBody =>
          match json.UnmarshalStringMap responseBody with
          | Result.error err => (lit "", some err)
          | Result.ok versionMap =>
            (indexString versionMap (lit "version_identifier"), none) := by
  unfold Archive at *
  simp only [callCreateRequest, callDo, callCollectionHostName, World.fresh] at hdo ⊢
  generalize r.CollectionHostName s c = hn at hdo ⊢
  generalize r.CreateRequest hn.2 _ _ _ _ = cr at hdo ⊢
  obtain ⟨cres, s2⟩ := cr
  cases cres with
  | error e => simp at hdo
  | ok req =>
    simp only at hdo ⊢
    generalize r.Do s2 _ = dr at hdo ⊢
    obtain ⟨dres, s3⟩ := dr
    cases dres with
    | error e => simp at hdo
    | ok resp2 =>
      simp at hdo
      obtain ⟨-, rfl⟩ := hdo
      exact ⟨_, rfl⟩

theorem DeleteVersion_createRequestCalls {σ : Type} (json : Json) (r : Requester σ) (s : σ)
    (c key versionIdentifier : GoString) :
    createRequestCalls
        (DeleteVersion json r (World.fresh s) c key versionIdentifier).2.events =
      [(lit "DELETE", (r.CollectionHostName s c).1,
        if versionIdentifier = lit "" then
          lit "/data/" ++ QueryEscape key
        else
          lit "/data/" ++ QueryEscape key ++ lit "?version=" ++ QueryEscape versionIdentifier,
        none)] := by
  unfold DeleteVersion
  simp only [callCreateRequest, callDo, callCollectionHostName, World.fresh, deletePath]
  generalize r.CollectionHostName s c = hn
  generalize r.CreateRequest hn.2 _ _ _ _ = cr
  obtain ⟨cres, s2⟩ := cr
  cases cres <;> simp [createRequestCalls]

theorem DeleteVersion_of_do {σ : Type} (json : Json) (r : Requester σ) (s : σ)
    (c key versionIdentifier : GoString) (request : Request) (resp : Response)
    (hdo : Event.Do request (Result.ok resp) ∈
      (DeleteVersion json r (World.fresh s) c key versionIdentifier).2.events) :
    ∃ msg, (DeleteVersion json r (World.fresh s) c key versionIdentifier).1 =
      if resp.StatusCode ≠ StatusOK then
        some (GoError.HTTPError resp.StatusCode msg)
      else
        match resp.Body.ReadAll with
        | Result.error err => some err
        | Result.ok responseBody =>
          match json.UnmarshalBoolMap responseBody with
          | Result.error err => some err
          | Result.ok resultMap =>
            if !indexBool resultMap (lit "success") then
              some (GoError.Errorf (lit "unexpected \x27false\x27 for \x27success\x27"))
            else
              none := by
  unfold DeleteVersion at hdo ⊢
  simp only [callCreateRequest, callDo, callCollectionHostName, World.fresh] at hdo ⊢
  generalize r.CollectionHostName s c = hn at hdo ⊢
  generalize r.CreateRequest hn.2 _ _ _ _ = cr at hdo ⊢
  obtain ⟨cres, s2⟩ := cr
  cases cres with
  | error e => simp at hdo
  | ok req =>
    simp only at hdo ⊢
    generalize r.Do s2 req = dr at hdo ⊢
    obtain ⟨dres, s3⟩ := dr
    cases dres with
    | error e => simp at hdo
    | ok resp2 =>
      simp at hdo
      obtain ⟨-, rfl⟩ := hdo
      exact ⟨_, rfl⟩

theorem Retrieve_createRequestCalls {σ : Type} (r : Requester σ) (s : σ)
    (c key : GoString) (p : RetrieveParams)
    (hm : p.ModifiedSince = none) (hu : p.UnmodifiedSince = none) :
    createRequestCalls (Retrieve r (World.fresh s) c key p).2.events =
      [(lit "GET", (r.CollectionHostName s c).1,
        if p.VersionID = lit "" then
          lit "/data/" ++ QueryEscape key
        else
          lit "/data/" ++ QueryEscape key ++ lit "?version_identifier=" ++
            QueryEscape p.VersionID,
        none)] := by
  unfold Retrieve
  simp only [callCreateRequest, callDo, callCollectionHostName, World.fresh, retrievePath,
    hm, hu, ne_eq, not_true_eq_false, if_false]
  generalize r.CollectionHostName s c = hn
  generalize r.CreateRequest hn.2 _ _ _ _ = cr
  obtain ⟨cres, s2⟩ := cr
  cases cres <;> simp [createRequestCalls]

/-- The request `Retrieve` hands to `Do`, given the request it got from
`CreateRequest`. -/
theorem Retrieve_doCalls {σ : Type} (r : Requester σ) (s : σ)
    (c key : GoString) (p : RetrieveParams)
    (method hostName path : GoString) (body : Option GoString) (req : Request)
    (hcr : Event.CreateRequest method hostName path body (Result.ok req) ∈
      (Retrieve r (World.fresh s) c key p).2.events) :
    doCalls (Retrieve r (World.fresh s) c key p).2.events =
      [if p.SliceOffset > 0 ∨ p.SliceSize > 0 then
        { req with Header := (Header.Add req.Header (lit "range")
            (if p.SliceSize > 0 then
              lit "bytes=" ++ Itoa p.SliceOffset ++ lit "-" ++
                Itoa (wrapInt (p.SliceOffset + p.SliceSize - 1))
            else
              lit "bytes=" ++ Itoa p.SliceOffset ++ lit "-")) }
      else req] := by
  unfold Retrieve at hcr ⊢
  by_cases hm : p.ModifiedSince = none
  · by_cases hu : p.UnmodifiedSince = none
    · simp only [callCreateRequest, callDo, callCollectionHostName, World.fresh,
        hm, hu, ne_eq, not_true_eq_false, if_false, wrapInt_sub_one] at hcr ⊢
      generalize r.CollectionHostName s c = hn at hcr ⊢
      generalize r.CreateRequest hn.2 _ _ _ _ = cr at hcr ⊢
      obtain ⟨cres, s2⟩ := cr
      cases cres with
      | error e => simp at hcr
      | ok req2 =>
        simp at hcr
        obtain ⟨-, -, -, -, rfl⟩ := hcr
        simp [doCalls, apply_ite Prod.fst]
    · simp [hm, hu, World.fresh] at hcr
  · simp [hm, World.fresh] at hcr

theorem Retrieve_of_do {σ : Type} (r : Requester σ) (s : σ)
    (c key : GoString) (p : RetrieveParams) (request : Request) (resp : Response)
    (hdo : Event.Do request (Result.ok resp) ∈ (Retrieve r (World.fresh s) c key p).2.events) :
    ∃ msg, (Retrieve r (World.fresh s) c key p).1 =
      if resp.StatusCode ≠
          (if p.SliceOffset > 0 ∨ p.SliceSize > 0 then StatusPartialContent else StatusOK) then
        (none, some (GoError.HTTPError resp.StatusCode msg))
      else if p.SliceSize > 0 ∧ resp.ContentLength ≠ -1 ∧
          resp.ContentLength ≠ p.SliceSize then
        (none, some (GoError.Errorf (lit "content length mismatch: expected " ++
          Itoa p.SliceSize ++ lit " found " ++ Itoa resp.ContentLength)))
      else
        (some resp.Body, none) := by
  unfold Retrieve at hdo ⊢
  by_cases hm : p.ModifiedSince = none
  · by_cases hu : p.UnmodifiedSince = none
    · simp only [callCreateRequest, callDo, callCollectionHostName, World.fresh,
        hm, hu, ne_eq, not_true_eq_false, if_false] at hdo ⊢
      generalize r.CollectionHostName s c = hn at hdo ⊢
      generalize r.CreateRequest hn.2 _ _ _ _ = cr at hdo ⊢
      obtain ⟨cres, s2⟩ := cr
      cases cres with
      | error e => simp at hdo
      | ok req =>
        simp only at hdo ⊢
        generalize r.Do s2 _ = dr at hdo ⊢
        obtain ⟨dres, s3⟩ := dr
        cases dres with
        | error e => simp at hdo
        | ok resp2 =>
          simp at hdo
          obtain ⟨-, rfl⟩ := hdo
          refine ⟨failedMessage (lit "GET") hn.1
            (if p.VersionID = lit "" then lit "/data/" ++ QueryEscape key
              else lit "/data/" ++ QueryEscape key ++ lit "?" ++
                Values.Encode (Values.Add [] (lit "version_identifier") p.VersionID)) resp, ?_⟩
          simp only [apply_ite Prod.snd]
    · simp [hm, hu, World.fresh] at hdo
  · simp [hm, World.fresh] at hdo

/-! ## The calls of an operation whose requester answers -/

theorem StartConjoined_events {σ : Type} (json : Json) (r : Requester σ) (s : σ)
    (c key : GoString) (req : Request) (resp : Response)
    (hcr : (createdBy r s c (lit "POST")
      (lit "/conjoined/" ++ QueryEscape key ++ lit "?action=start") none).1 = Result.ok req)
    (hdo : (doneBy r s c (lit "POST")
      (lit "/conjoined/" ++ QueryEscape key ++ lit "?action=start") none req).1 =
        Result.ok resp) :
    (StartConjoined json r (World.fresh s) c key).2.events =
      [Event.CollectionHostName c (r.CollectionHostName s c).1,
        Event.CreateRequest (lit "POST") (r.CollectionHostName s c).1
          (lit "/conjoined/" ++ QueryEscape key ++ lit "?action=start") none (Result.ok req),
        Event.Do req (Result.ok resp)] := by
  unfold StartConjoined
  simp only [callCreateRequest, callDo, callCollectionHostName, World.fresh, startPath,
    createdBy, doneBy] at hcr hdo ⊢
  simp only [hcr, hdo]
  rfl

theorem AbortConjoined_events {σ : Type} (json : Json) (r : Requester σ) (s : σ)
    (c key conjoinedIdentifier : GoString) (req : Request) (resp : Response)
    (hcr : (createdBy r s c (lit "POST")
      (lit "/conjoined/" ++ QueryEscape key ++ lit "?action=abort&conjoined_identifier=" ++
        QueryEscape conjoinedIdentifier) none).1 = Result.ok req)
    (hdo : (doneBy r s c (lit "POST")
      (lit "/conjoined/" ++ QueryEscape key ++ lit "?action=abort&conjoined_identifier=" ++
        QueryEscape conjoinedIdentifier) none req).1 = Result.ok resp) :
    (AbortConjoined json r (World.fresh s) c key conjoinedIdentifier).2.events =
      [Event.CollectionHostName c (r.CollectionHostName s c).1,
        Event.CreateRequest (lit "POST") (r.CollectionHostName s c).1
          (lit "/conjoined/" ++ QueryEscape key ++ lit "?action=abort&conjoined_identifier=" ++
            QueryEscape conjoinedIdentifier) none (Result.ok req),
        Event.Do req (Result.ok resp)] := by
  unfold AbortConjoined
  simp only [callCreateRequest, callDo, callCollectionHostName, World.fresh, abortPath,
    createdBy, doneBy] at hcr hdo ⊢
  simp only [hcr, hdo]
  rfl

theorem FinishConjoined_events {σ : Type} (json : Json) (r : Requester σ) (s : σ)
    (c key conjoinedIdentifier : GoString) (req : Request) (resp : Response)
    (hcr : (createdBy r s c (lit "POST")
      (lit "/conjoined/" ++ QueryEscape key ++ lit "?action=finish&conjoined_identifier=" ++
        QueryEscape conjoinedIdentifier) none).1 = Result.ok req)
    (hdo : (doneBy r s c (lit "POST")
      (lit "/conjoined/" ++ QueryEscape key ++ lit "?action=finish&conjoined_identifier=" ++
        QueryEscape conjoinedIdentifier) none req).1 = Result.ok resp) :
    (FinishConjoined json r (World.fresh s) c key conjoinedIdentifier).2.events =
      [Event.CollectionHostName c (r.CollectionHostName s c).1,
        Event.CreateRequest (lit "POST") (r.CollectionHostName s c).1
          (lit "/conjoined/" ++ QueryEscape key ++ lit "?action=finish&conjoined_identifier=" ++
            QueryEscape conjoinedIdentifier) none (Result.ok req),
        Event.Do req (Result.ok resp)] := by
  unfold FinishConjoined
  simp only [callCreateRequest, callDo, callCollectionHostName, World.fresh, finishPath,
    createdBy, doneBy] at hcr hdo ⊢
  simp only [hcr, hdo]
  rfl

theorem Archive_events {σ : Type} (json : Json) (r : Requester σ) (s : σ)
    (c key : GoString) (conjoinedParams : Option ConjoinedParams) (contentLength : Int)
    (requestBody : Option GoString) (path : GoString) (req : Request) (resp : Response)
    (hpath : path =
      match conjoinedParams with
      | some params =>
        if params.ConjoinedIdentifier ≠ lit "" then
          lit "/data/" ++ QueryEscape key ++ lit "?conjoined_identifier=" ++
            QueryEscape params.ConjoinedIdentifier ++ lit "&conjoined_part=" ++
            Itoa params.ConjoinedPart
        else
          lit "/data/" ++ QueryEscape key
      | none => lit "/data/" ++ QueryEscape key)
    (hcr : (createdBy r s c (lit "POST") path requestBody).1 = Result.ok req)
    (hdo : (doneBy r s c (lit "POST") path requestBody
      { req with ContentLength := contentLength }).1 = Result.ok resp) :
    (Archive json r (World.fresh s) c key conjoinedParams contentLength
        requestBody).2.events =
      [Event.CollectionHostName c (r.CollectionHostName s c).1,
        Event.CreateRequest (lit "POST") (r.CollectionHostName s c).1 path requestBody
          (Result.ok req),
        Event.Do { req with ContentLength := contentLength } (Result.ok resp)] := by
  subst hpath
  unfold Archive
  simp only [callCreateRequest, callDo, callCollectionHostName, World.fresh, archivePath,
    createdBy, doneBy] at hcr hdo ⊢
  simp only [hcr, hdo]
  rfl

theorem DeleteVersion_events {σ : Type} (json : Json) (r : Requester σ) (s : σ)
    (c key versionIdentifier path : GoString) (req : Request) (resp : Response)
    (hpath : path =
      if versionIdentifier = lit "" then
        lit "/data/" ++ QueryEscape key
      else
        lit "/data/" ++ QueryEscape key ++ lit "?version=" ++ QueryEscape versionIdentifier)
    (hcr : (createdBy r s c (lit "DELETE") path none).1 = Result.ok req)
    (hdo : (doneBy r s c (lit "DELETE") path none req).1 = Result.ok resp) :
    (DeleteVersion json r (World.fresh s) c key versionIdentifier).2.events =
      [Event.CollectionHostName c (r.CollectionHostName s c).1,
        Event.CreateRequest (lit "DELETE") (r.CollectionHostName s c).1 path none
          (Result.ok req),
        Event.Do req (Result.ok resp)] := by
  subst hpath
  unfold DeleteVersion
  simp only [callCreateRequest, callDo, callCollectionHostName, World.fresh, deletePath,
    createdBy, doneBy] at hcr hdo ⊢
  simp only [hcr, hdo]
  rfl

theorem Retrieve_events {σ : Type} (r : Requester σ) (s : σ)
    (c key : GoString) (p : RetrieveParams) (path : GoString) (req sent : Request)
    (resp : Response)
    (hm : p.ModifiedSince = none) (hu : p.UnmodifiedSince = none)
    (hpath : path =
      if p.VersionID = lit "" then
        lit "/data/" ++ QueryEscape key
      else
        lit "/data/" ++ QueryEscape key ++ lit "?version_identifier=" ++
          QueryEscape p.VersionID)
    (hcr : (createdBy r s c (lit "GET") path none).1 = Result.ok req)
    (hsent : sent =
      if p.SliceOffset > 0 ∨ p.SliceSize > 0 then
        { req with Header := (Header.Add req.Header (lit "range")
            (if p.SliceSize > 0 then
              lit "bytes=" ++ Itoa p.SliceOffset ++ lit "-" ++
                Itoa (wrapInt (p.SliceOffset + p.SliceSize - 1))
            else
              lit "bytes=" ++ Itoa p.SliceOffset ++ lit "-")) }
      else req)
    (hdo : (doneBy r s c (lit "GET") path none sent).1 = Result.ok resp) :
    (Retrieve r (World.fresh s) c key p).2.events =
      [Event.CollectionHostName c (r.CollectionHostName s c).1,
        Event.CreateRequest (lit "GET") (r.CollectionHostName s c).1 path none (Result.ok req),
        Event.Do sent (Result.ok resp)] := by
  subst hpath hsent
  unfold Retrieve
  simp only [callCreateRequest, callDo, callCollectionHostName, World.fresh, retrievePath,
    createdBy, doneBy, hm, hu, ne_eq, not_true_eq_false, if_false, wrapInt_sub_one,
    apply_ite Prod.fst] at hcr hdo ⊢
  simp only [hcr, hdo]
  rfl

/-- In a map (distinct keys) the entry of a key is the value indexing gives. -/
theorem indexString_of_mem (m : List (GoString × GoString)) (key value : GoString)
    (hkeys : (m.map Prod.fst).Nodup) (hmem : (key, value) ∈ m) :
    indexString m key = value := by
  induction m with
  | nil => simp at hmem
  | cons e rest ih =>
    obtain ⟨k, v⟩ := e
    simp only [List.map_cons, List.nodup_cons] at hkeys
    rcases List.mem_cons.mp hmem with h | h
    · injection h with h1 h2
      subst h1 h2
      simp [indexString]
    · have hk : k ≠ key := by
        intro hk
        subst hk
        exact hkeys.1 (List.mem_map.mpr ⟨(k, value), h, rfl⟩)
      simp [indexString, hk, ih hkeys.2 h]

theorem indexString_of_not_mem (m : List (GoString × GoString)) (key : GoString)
    (hmiss : ∀ value, (key, value) ∉ m) : indexString m key = lit "" := by
  induction m with
  | nil => rfl
  | cons e rest ih =>
    obtain ⟨k, v⟩ := e
    have hk : k ≠ key := by
      intro hk
      exact hmiss v (by simp [hk])
    have hrest : ∀ value, (key, value) ∉ rest :=
      fun value hv => hmiss value (List.mem_cons_of_mem _ hv)
    simp [indexString, hk, ih hrest]

theorem indexBool_of_mem (m : List (GoString × Bool)) (key : GoString) (value : Bool)
    (hkeys : (m.map Prod.fst).Nodup) (hmem : (key, value) ∈ m) :
    indexBool m key = value := by
  induction m with
  | nil => simp at hmem
  | cons e rest ih =>
    obtain ⟨k, v⟩ := e
    simp only [List.map_cons, List.nodup_cons] at hkeys
    rcases List.mem_cons.mp hmem with h | h
    · injection h with h1 h2
      subst h1 h2
      simp [indexBool]
    · have hk : k ≠ key := by
        intro hk
        subst hk
        exact hkeys.1 (List.mem_map.mpr ⟨(k, value), h, rfl⟩)
      simp [indexBool, hk, ih hkeys.2 h]

/-- In a map (distinct keys) indexing gives `true` exactly at a key whose
entry is `true`. -/
theorem indexBool_eq_true_iff (m : List (GoString × Bool)) (key : GoString)
    (hkeys : (m.map Prod.fst).Nodup) : indexBool m key = true ↔ (key, true) ∈ m := by
  induction m with
  | nil => simp [indexBool]
  | cons e rest ih =>
    obtain ⟨k, v⟩ := e
    simp only [List.map_cons, List.nodup_cons] at hkeys
    by_cases hk : k = key
    · subst hk
      have hnot : (k, true) ∉ rest :=
        fun h => hkeys.1 (List.mem_map.mpr ⟨(k, true), h, rfl⟩)
      simp [indexBool, hnot]
    · have hne : ¬ (key = k) := fun h => hk h.symm
      simp [indexBool, hk, hne, ih hkeys.2]

/-! ## No question mark in an escaped string -/

theorem question_not_in_percentByte_aux : ∀ n, n < 256 →
    byte '?' ∉ percentByte (UInt8.ofNat n) := by
  decide

theorem question_not_in_queryEncode (s : GoString) : byte '?' ∉ queryEncode s := by
  intro h
  simp only [queryEncode, List.mem_flatMap] at h
  obtain ⟨c, -, hc⟩ := h
  split at hc
  · rename_i hu
    have hc2 : byte '?' = c := by simpa using hc
    subst hc2
    exact absurd hu (by decide)
  · split at hc
    · exact absurd hc (by decide)
    · have h := question_not_in_percentByte_aux c.toNat c.toBitVec.isLt
      rw [byte_ofNat_toNat] at h
      exact h hc

/-! ## Claims -/

/-- C1: take a `Retrieve` whose `CreateRequest` call returned the request
`req`, which happens only when `ModifiedSince` and `UnmodifiedSince` are nil:
one request goes to `Do`.  With `SliceOffset > 0` or `SliceSize > 0` it is `req` with one value
added under the `range` header, so exactly one when `req` had none, and the
expected status is 206: a response fails with an `HTTPError` exactly when its
status is not 206.  The value is `bytes=<SliceOffset>-<SliceOffset+SliceSize-1>`
when `SliceSize > 0`, the end being computed in `int` and equal to the exact
sum whenever that fits, and `bytes=<SliceOffset>-` otherwise.  With neither,
`req` goes to `Do` unchanged and the expected status is 200. -/
theorem Retrieve_range_header {σ : Type} (r : Requester σ) (s : σ) (c key : GoString)
    (p : RetrieveParams) (method hostName path : GoString) (body : Option GoString)
    (req : Request)
    (hcr : Event.CreateRequest method hostName path body (Result.ok req) ∈
      (Retrieve r (World.fresh s) c key p).2.events) :
    (p.SliceOffset > 0 ∨ p.SliceSize > 0 →
        ∃ sent rangeArg,
          doCalls (Retrieve r (World.fresh s) c key p).2.events = [sent] ∧
          sent = { req with Header := Header.Add req.Header (lit "range") rangeArg } ∧
          Header.Values sent.Header (lit "range") =
            Header.Values req.Header (lit "range") ++ [rangeArg] ∧
          (p.SliceSize > 0 →
            rangeArg = lit "bytes=" ++ Itoa p.SliceOffset ++ lit "-" ++
              Itoa (wrapInt (p.SliceOffset + p.SliceSize - 1))) ∧
          (p.SliceSize > 0 → p.SliceOffset + p.SliceSize - 1 < 2 ^ 63 →
            -(2 ^ 63) ≤ p.SliceOffset →
            rangeArg = lit "bytes=" ++ Itoa p.SliceOffset ++ lit "-" ++
              Itoa (p.SliceOffset + p.SliceSize - 1)) ∧
          (¬ p.SliceSize > 0 → rangeArg = lit "bytes=" ++ Itoa p.SliceOffset ++ lit "-") ∧
          (∀ request resp, Event.Do request (Result.ok resp) ∈
              (Retrieve r (World.fresh s) c key p).2.events →
            (failsWithHTTPError (Retrieve r (World.fresh s) c key p).1.2 = true ↔
              resp.StatusCode ≠ 206))) ∧
      (¬ (p.SliceOffset > 0 ∨ p.SliceSize > 0) →
        doCalls (Retrieve r (World.fresh s) c key p).2.events = [req] ∧
        (∀ request resp, Event.Do request (Result.ok resp) ∈
            (Retrieve r (World.fresh s) c key p).2.events →
          (failsWithHTTPError (Retrieve r (World.fresh s) c key p).1.2 = true ↔
            resp.StatusCode ≠ 200))) := by
  have hcalls := Retrieve_doCalls r s c key p method hostName path body req hcr
  have hstatus : ∀ request resp, Event.Do request (Result.ok resp) ∈
      (Retrieve r (World.fresh s) c key p).2.events →
      (failsWithHTTPError (Retrieve r (World.fresh s) c key p).1.2 = true ↔
        resp.StatusCode ≠
          (if p.SliceOffset > 0 ∨ p.SliceSize > 0 then StatusPartialContent else StatusOK)) := by
    intro request resp hdo
    obtain ⟨msg, h⟩ := Retrieve_of_do r s c key p request resp hdo
    rw [h]
    by_cases hne : resp.StatusCode ≠
        (if p.SliceOffset > 0 ∨ p.SliceSize > 0 then StatusPartialContent else StatusOK)
    · rw [if_pos hne]
      simpa [failsWithHTTPError, GoError.isHTTPError] using hne
    · rw [if_neg hne]
      by_cases hmis : p.SliceSize > 0 ∧ resp.ContentLength ≠ -1 ∧
          resp.ContentLength ≠ p.SliceSize
      · rw [if_pos hmis]
        simpa [failsWithHTTPError, GoError.isHTTPError] using hne
      · rw [if_neg hmis]
        simpa [failsWithHTTPError, GoError.isHTTPError] using hne
  constructor
  · intro hsl
    rw [if_pos hsl] at hcalls
    refine ⟨_, _, hcalls, rfl, ?_, ?_, ?_, ?_, ?_⟩
    · exact Values.index_Add _ _ _
    · intro hsz
      rw [if_pos hsz]
    · intro hsz hfit hlow
      rw [if_pos hsz, wrapInt_of_inRange _ (by omega) hfit]
    · intro hsz
      rw [if_neg hsz]
    · intro request resp hdo
      have h := hstatus request resp hdo
      rw [if_pos hsl] at h
      exact h
  · intro hsl
    rw [if_neg hsl] at hcalls
    refine ⟨hcalls, ?_⟩
    intro request resp hdo
    have h := hstatus request resp hdo
    rw [if_neg hsl] at h
    exact h

theorem Retrieve_range_header_witness :
    ∃ sent rangeArg,
      doCalls (Retrieve (sampleRequester (Result.ok (sampleResponse 206 4 (lit "body"))))
        (World.fresh 0) (lit "coll") (lit "test key")
        { VersionID := lit "", SliceOffset := 5, SliceSize := 4,
          ModifiedSince := none, UnmodifiedSince := none }).2.events = [sent] ∧
      Header.Values sent.Header (lit "range") = [rangeArg] ∧
      rangeArg = lit "bytes=5-8" :=
  have h := (Retrieve_range_header
    (sampleRequester (Result.ok (sampleResponse 206 4 (lit "body"))))
    0 (lit "coll") (lit "test key")
    { VersionID := lit "", SliceOffset := 5, SliceSize := 4,
      ModifiedSince := none, UnmodifiedSince := none }
    (lit "GET") (lit "coll.nimbus.io") (lit "/data/test+key") none
    (sampleRequest (lit "GET") (lit "https://coll.nimbus.io/data/test+key") none)
    (by decide)).1 (Or.inl (by decide))
  match h with
  | ⟨sent, rangeArg, h1, _, h3, h4, _, _, _⟩ =>
    ⟨sent, rangeArg, h1, h3, (h4 (by decide)).trans (by decide)⟩

/-- C2: take a `Retrieve` to which `Do` returned a response with the expected
status.  With `SliceSize > 0` (the expected status is then 206) and a declared
content length (not -1), the body comes back with a nil error exactly when the
declared length equals `SliceSize`; when it differs the result is a nil body
and a "content length mismatch" error built by `fmt.Errorf`, not an
`HTTPError`.  With `SliceSize <= 0` or an undeclared length the body comes
back whatever the length. -/
theorem Retrieve_content_length {σ : Type} (r : Requester σ) (s : σ) (c key : GoString)
    (p : RetrieveParams) (request : Request) (resp : Response)
    (hdo : Event.Do request (Result.ok resp) ∈ (Retrieve r (World.fresh s) c key p).2.events)
    (hst : resp.StatusCode =
      (if p.SliceOffset > 0 ∨ p.SliceSize > 0 then StatusPartialContent else StatusOK)) :
    (p.SliceSize > 0 → resp.ContentLength ≠ -1 →
        resp.StatusCode = 206 ∧
        ((Retrieve r (World.fresh s) c key p).1 = (some resp.Body, none) ↔
          resp.ContentLength = p.SliceSize) ∧
        (resp.ContentLength ≠ p.SliceSize →
          (Retrieve r (World.fresh s) c key p).1 =
            (none, some (GoError.Errorf (lit "content length mismatch: expected " ++
              Itoa p.SliceSize ++ lit " found " ++ Itoa resp.ContentLength))) ∧
          failsWithHTTPError (Retrieve r (World.fresh s) c key p).1.2 = false)) ∧
      (p.SliceSize ≤ 0 ∨ resp.ContentLength = -1 →
        (Retrieve r (World.fresh s) c key p).1 = (some resp.Body, none)) := by
  obtain ⟨msg, h⟩ := Retrieve_of_do r s c key p request resp hdo
  rw [if_neg (not_not.mpr hst)] at h
  constructor
  · intro hsz hlen
    refine ⟨?_, ?_, ?_⟩
    · rw [hst, if_pos (Or.inr hsz)]
      rfl
    · rw [h]
      by_cases heq : resp.ContentLength = p.SliceSize
      · simp [heq]
      · simp [heq, hsz, hlen]
    · intro hne
      rw [h, if_pos ⟨hsz, hlen, hne⟩]
      exact ⟨rfl, rfl⟩
  · intro hor
    rw [h, if_neg]
    rintro ⟨hsz, hlen, -⟩
    rcases hor with hor | hor
    · omega
    · exact hlen hor

theorem Retrieve_content_length_witness :
    (Retrieve (sampleRequester (Result.ok (sampleResponse 206 3 (lit "bod"))))
        (World.fresh 0) (lit "coll") (lit "test key")
        { VersionID := lit "", SliceOffset := 5, SliceSize := 4,
          ModifiedSince := none, UnmodifiedSince := none }).1 =
      (none, some (GoError.Errorf (lit "content length mismatch: expected 4 found 3"))) :=
  ((((Retrieve_content_length
    (sampleRequester (Result.ok (sampleResponse 206 3 (lit "bod"))))
    0 (lit "coll") (lit "test key")
    { VersionID := lit "", SliceOffset := 5, SliceSize := 4,
      ModifiedSince := none, UnmodifiedSince := none }
    { Method := lit "GET", URL := lit "https://coll.nimbus.io/data/test+key",
      Header := [(lit "Agent", [lit "gonimbusio/1.0"]), (lit "Range", [lit "bytes=5-8"])],
      ContentLength := 0, Body := none }
    (sampleResponse 206 3 (lit "bod"))
    (by decide) (by decide)).1 (by decide) (by decide)).2.2 (by decide)).1).trans (by decide)

/-- C3: a `Retrieve` whose `ModifiedSince` or `UnmodifiedSince` is non-nil
returns a nil body and a "not implemented" error built by `fmt.Errorf` (so
not an `HTTPError`), and leaves the world as it found it: the state of the
requester is unchanged and no call on it is recorded. -/
theorem Retrieve_conditional_not_implemented {σ : Type} (r : Requester σ) (w : World σ)
    (c key : GoString) (p : RetrieveParams)
    (h : p.ModifiedSince ≠ none ∨ p.UnmodifiedSince ≠ none) :
    (Retrieve r w c key p).1 =
        (none, some (GoError.Errorf
          (if p.ModifiedSince ≠ none then lit "not implemented: retrieveParams.ModifiedSince"
            else lit "not implemented: retrieveParams.UnmodifiedSince"))) ∧
      failsWithHTTPError (Retrieve r w c key p).1.2 = false ∧
      (Retrieve r w c key p).2.state = w.state ∧
      (Retrieve r w c key p).2.events = w.events := by
  unfold Retrieve
  by_cases hm : p.ModifiedSince = none
  · have hu : p.UnmodifiedSince ≠ none := by
      rcases h with h | h
      · exact absurd hm h
      · exact h
    simp [hm, hu, failsWithHTTPError, GoError.isHTTPError]
  · simp [hm, failsWithHTTPError, GoError.isHTTPError]

theorem Retrieve_conditional_not_implemented_witness :
    (Retrieve (sampleRequester (Result.ok (sampleResponse 200 9 (lit "test body"))))
        (World.fresh 0) (lit "coll") (lit "test key")
        { VersionID := lit "", SliceOffset := 0, SliceSize := 0,
          ModifiedSince := some (lit "2013-01-01"), UnmodifiedSince := none }).1 =
      (none, some (GoError.Errorf (lit "not implemented: retrieveParams.ModifiedSince"))) ∧
    (Retrieve (sampleRequester (Result.ok (sampleResponse 200 9 (lit "test body"))))
        (World.fresh 0) (lit "coll") (lit "test key")
        { VersionID := lit "", SliceOffset := 0, SliceSize := 0,
          ModifiedSince := some (lit "2013-01-01"), UnmodifiedSince := none }).2.events = [] :=
  have h := Retrieve_conditional_not_implemented
    (sampleRequester (Result.ok (sampleResponse 200 9 (lit "test body"))))
    (World.fresh 0) (lit "coll") (lit "test key")
    { VersionID := lit "", SliceOffset := 0, SliceSize := 0,
      ModifiedSince := some (lit "2013-01-01"), UnmodifiedSince := none }
    (Or.inl (by decide))
  ⟨h.1, h.2.2.2⟩

/-- C5: `Archive` calls `CreateRequest` once, with method POST and the body it
was given; the path is
`/data/<escaped key>?conjoined_identifier=<escaped id>&conjoined_part=<n>`,
the part number in decimal, when `conjoinedParams` is non-nil with a non-empty
identifier, and `/data/<escaped key>` in every other case. -/
theorem Archive_request_path {σ : Type} (json : Json) (r : Requester σ) (s : σ)
    (c key : GoString) (conjoinedParams : Option ConjoinedParams) (contentLength : Int)
    (requestBody : Option GoString) :
    createRequestCalls
        (Archive json r (World.fresh s) c key conjoinedParams contentLength
          requestBody).2.events =
      [(lit "POST", (r.CollectionHostName s c).1,
        match conjoinedParams with
        | some params =>
          if params.ConjoinedIdentifier ≠ lit "" then
            lit "/data/" ++ QueryEscape key ++ lit "?conjoined_identifier=" ++
              QueryEscape params.ConjoinedIdentifier ++ lit "&conjoined_part=" ++
              Itoa params.ConjoinedPart
          else
            lit "/data/" ++ QueryEscape key
        | none => lit "/data/" ++ QueryEscape key,
        requestBody)] :=
  Archive_createRequestCalls json r s c key conjoinedParams contentLength requestBody

/-- C7: each conjoined operation calls `CreateRequest` once, with method POST,
a nil body and the path `/conjoined/<escaped key>?action=start`,
`/conjoined/<escaped key>?action=abort&conjoined_identifier=<escaped id>`,
`/conjoined/<escaped key>?action=finish&conjoined_identifier=<escaped id>`
respectively. -/
theorem conjoined_request_paths {σ : Type} (json : Json) (r : Requester σ) (s : σ)
    (c key conjoinedIdentifier : GoString) :
    createRequestCalls (StartConjoined json r (World.fresh s) c key).2.events =
        [(lit "POST", (r.CollectionHostName s c).1,
          lit "/conjoined/" ++ QueryEscape key ++ lit "?action=start", none)] ∧
      createRequestCalls
          (AbortConjoined json r (World.fresh s) c key conjoinedIdentifier).2.events =
        [(lit "POST", (r.CollectionHostName s c).1,
          lit "/conjoined/" ++ QueryEscape key ++ lit "?action=abort&conjoined_identifier=" ++
            QueryEscape conjoinedIdentifier, none)] ∧
      createRequestCalls
          (FinishConjoined json r (World.fresh s) c key conjoinedIdentifier).2.events =
        [(lit "POST", (r.CollectionHostName s c).1,
          lit "/conjoined/" ++ QueryEscape key ++ lit "?action=finish&conjoined_identifier=" ++
            QueryEscape conjoinedIdentifier, none)] :=
  ⟨StartConjoined_createRequestCalls json r s c key,
    AbortConjoined_createRequestCalls json r s c key conjoinedIdentifier,
    FinishConjoined_createRequestCalls json r s c key conjoinedIdentifier⟩

/-- C10: let the requester answer the `CreateRequest` call of `StartConjoined`
with `req` and the `Do` call on `req` with a response of status 200 whose body
reads and decodes as a JSON object of strings (a map, so with distinct keys).
Then `StartConjoined` sends `req` through `Do`, and returns the value the
object gives to `conjoined_identifier` with a nil error; when the object has
no such field it returns the empty string with a nil error. -/
theorem StartConjoined_identifier {σ : Type} (json : Json) (r : Requester σ) (s : σ)
    (c key : GoString) (req : Request) (resp : Response) (responseBody : GoString)
    (conjoinedMap : List (GoString × GoString))
    (hcr : (createdBy r s c (lit "POST")
      (lit "/conjoined/" ++ QueryEscape key ++ lit "?action=start") none).1 = Result.ok req)
    (hdo : (doneBy r s c (lit "POST")
      (lit "/conjoined/" ++ QueryEscape key ++ lit "?action=start") none req).1 =
        Result.ok resp)
    (hst : resp.StatusCode = 200)
    (hread : resp.Body.ReadAll = Result.ok responseBody)
    (hjson : json.UnmarshalStringMap responseBody = Result.ok conjoinedMap)
    (hkeys : (conjoinedMap.map Prod.fst).Nodup) :
    doCalls (StartConjoined json r (World.fresh s) c key).2.events = [req] ∧
      (∀ value, (lit "conjoined_identifier", value) ∈ conjoinedMap →
        (StartConjoined json r (World.fresh s) c key).1 = (value, none)) ∧
      ((∀ value, (lit "conjoined_identifier", value) ∉ conjoinedMap) →
        (StartConjoined json r (World.fresh s) c key).1 = (lit "", none)) := by
  have hev := StartConjoined_events json r s c key req resp hcr hdo
  have hmem : Event.Do req (Result.ok resp) ∈
      (StartConjoined json r (World.fresh s) c key).2.events := by
    rw [hev]
    simp
  have hrun := StartConjoined_of_do json r s c key req resp hmem
  have hok : resp.StatusCode = StatusOK := hst
  simp only [hok, ne_eq, not_true_eq_false, if_false, hread, hjson] at hrun
  refine ⟨?_, ?_, ?_⟩
  · rw [hev]
    rfl
  · intro value hvalue
    rw [hrun, indexString_of_mem conjoinedMap _ value hkeys hvalue]
  · intro hmiss
    rw [hrun, indexString_of_not_mem conjoinedMap _ hmiss]

theorem StartConjoined_identifier_witness :
    (StartConjoined sampleJson
        (sampleRequester (Result.ok
          (sampleResponse 200 30 (lit "\x7b\"conjoined_identifier\": \"abc\"\x7d"))))
        (World.fresh 0) (lit "coll") (lit "test key")).1 = (lit "abc", none) ∧
    (StartConjoined sampleJson
        (sampleRequester (Result.ok (sampleResponse 200 2 (lit "\x7b\x7d"))))
        (World.fresh 0) (lit "coll") (lit "test key")).1 = (lit "", none) :=
  ⟨(StartConjoined_identifier sampleJson
      (sampleRequester (Result.ok
        (sampleResponse 200 30 (lit "\x7b\"conjoined_identifier\": \"abc\"\x7d"))))
      0 (lit "coll") (lit "test key")
      (sampleRequest (lit "POST")
        (lit "https://coll.nimbus.io/conjoined/test+key?action=start") none)
      (sampleResponse 200 30 (lit "\x7b\"conjoined_identifier\": \"abc\"\x7d"))
      (lit "\x7b\"conjoined_identifier\": \"abc\"\x7d")
      [(lit "conjoined_identifier", lit "abc")]
      (by decide) (by decide) (by decide) (by decide) (by decide) (by decide)).2.1
      (lit "abc") (by decide),
    (StartConjoined_identifier sampleJson
      (sampleRequester (Result.ok (sampleResponse 200 2 (lit "\x7b\x7d"))))
      0 (lit "coll") (lit "test key")
      (sampleRequest (lit "POST")
        (lit "https://coll.nimbus.io/conjoined/test+key?action=start") none)
      (sampleResponse 200 2 (lit "\x7b\x7d")) (lit "\x7b\x7d") []
      (by decide) (by decide) (by decide) (by decide) (by decide) (by decide)).2.2
      (by simp)⟩

/-- C4: for each of `StartConjoined`, `AbortConjoined`, `FinishConjoined`,
`Archive`, `Retrieve` (with nil `ModifiedSince` and `UnmodifiedSince`) and
`DeleteVersion`: let the requester answer the `CreateRequest` call of the
operation with `req` and the `Do` call on the request the operation sends with
a response and no transport error.  Then the operation does send that request
through `Do`, and if the status of the response differs from the expected one
(200; 206 for a `Retrieve` with a slice, the one that adds the range header)
it returns an `HTTPError` carrying that status, with an empty identifier or a
nil body. -/
theorem unexpected_status_is_HTTPError {σ : Type} (json : Json) (r : Requester σ) (s : σ)
    (c key conjoinedIdentifier versionIdentifier : GoString)
    (conjoinedParams : Option ConjoinedParams) (contentLength : Int)
    (requestBody : Option GoString) (p : RetrieveParams)
    (pathA pathR pathD : GoString) (req sent : Request) (resp : Response)
    (hpathA : pathA =
      match conjoinedParams with
      | some params =>
        if params.ConjoinedIdentifier ≠ lit "" then
          lit "/data/" ++ QueryEscape key ++ lit "?conjoined_identifier=" ++
            QueryEscape params.ConjoinedIdentifier ++ lit "&conjoined_part=" ++
            Itoa params.ConjoinedPart
        else
          lit "/data/" ++ QueryEscape key
      | none => lit "/data/" ++ QueryEscape key)
    (hpathR : pathR =
      if p.VersionID = lit "" then
        lit "/data/" ++ QueryEscape key
      else
        lit "/data/" ++ QueryEscape key ++ lit "?version_identifier=" ++
          QueryEscape p.VersionID)
    (hpathD : pathD =
      if versionIdentifier = lit "" then
        lit "/data/" ++ QueryEscape key
      else
        lit "/data/" ++ QueryEscape key ++ lit "?version=" ++ QueryEscape versionIdentifier)
    (hsent : sent =
      if p.SliceOffset > 0 ∨ p.SliceSize > 0 then
        { req with Header := (Header.Add req.Header (lit "range")
            (if p.SliceSize > 0 then
              lit "bytes=" ++ Itoa p.SliceOffset ++ lit "-" ++
                Itoa (wrapInt (p.SliceOffset + p.SliceSize - 1))
            else
              lit "bytes=" ++ Itoa p.SliceOffset ++ lit "-")) }
      else req) :
    ((createdBy r s c (lit "POST")
          (lit "/conjoined/" ++ QueryEscape key ++ lit "?action=start") none).1 =
          Result.ok req →
        (doneBy r s c (lit "POST")
          (lit "/conjoined/" ++ QueryEscape key ++ lit "?action=start") none req).1 =
          Result.ok resp →
        resp.StatusCode ≠ 200 →
        doCalls (StartConjoined json r (World.fresh s) c key).2.events = [req] ∧
        ∃ msg, (StartConjoined json r (World.fresh s) c key).1 =
          (lit "", some (GoError.HTTPError resp.StatusCode msg))) ∧
      ((createdBy r s c (lit "POST")
          (lit "/conjoined/" ++ QueryEscape key ++ lit "?action=abort&conjoined_identifier=" ++
            QueryEscape conjoinedIdentifier) none).1 = Result.ok req →
        (doneBy r s c (lit "POST")
          (lit "/conjoined/" ++ QueryEscape key ++ lit "?action=abort&conjoined_identifier=" ++
            QueryEscape conjoinedIdentifier) none req).1 = Result.ok resp →
        resp.StatusCode ≠ 200 →
        doCalls (AbortConjoined json r (World.fresh s) c key
          conjoinedIdentifier).2.events = [req] ∧
        ∃ msg, (AbortConjoined json r (World.fresh s) c key conjoinedIdentifier).1 =
          some (GoError.HTTPError resp.StatusCode msg)) ∧
      ((createdBy r s c (lit "POST")
          (lit "/conjoined/" ++ QueryEscape key ++ lit "?action=finish&conjoined_identifier=" ++
            QueryEscape conjoinedIdentifier) none).1 = Result.ok req →
        (doneBy r s c (lit "POST")
          (lit "/conjoined/" ++ QueryEscape key ++ lit "?action=finish&conjoined_identifier=" ++
            QueryEscape conjoinedIdentifier) none req).1 = Result.ok resp →
        resp.StatusCode ≠ 200 →
        doCalls (FinishConjoined json r (World.fresh s) c key
          conjoinedIdentifier).2.events = [req] ∧
        ∃ msg, (FinishConjoined json r (World.fresh s) c key conjoinedIdentifier).1 =
          some (GoError.HTTPError resp.StatusCode msg)) ∧
      ((createdBy r s c (lit "POST") pathA requestBody).1 = Result.ok req →
        (doneBy r s c (lit "POST") pathA requestBody
          { req with ContentLength := contentLength }).1 = Result.ok resp →
        resp.StatusCode ≠ 200 →
        doCalls (Archive json r (World.fresh s) c key conjoinedParams contentLength
          requestBody).2.events = [{ req with ContentLength := contentLength }] ∧
        ∃ msg, (Archive json r (World.fresh s) c key conjoinedParams contentLength
            requestBody).1 =
          (lit "", some (GoError.HTTPError resp.StatusCode msg))) ∧
      (p.ModifiedSince = none → p.UnmodifiedSince = none →
        (createdBy r s c (lit "GET") pathR none).1 = Result.ok req →
        (doneBy r s c (lit "GET") pathR none sent).1 = Result.ok resp →
        resp.StatusCode ≠ (if p.SliceOffset > 0 ∨ p.SliceSize > 0 then 206 else 200) →
        doCalls (Retrieve r (World.fresh s) c key p).2.events = [sent] ∧
        ∃ msg, (Retrieve r (World.fresh s) c key p).1 =
          (none, some (GoError.HTTPError resp.StatusCode msg))) ∧
      ((createdBy r s c (lit "DELETE") pathD none).1 = Result.ok req →
        (doneBy r s c (lit "DELETE") pathD none req).1 = Result.ok resp →
        resp.StatusCode ≠ 200 →
        doCalls (DeleteVersion json r (World.fresh s) c key
          versionIdentifier).2.events = [req] ∧
        ∃ msg, (DeleteVersion json r (World.fresh s) c key versionIdentifier).1 =
          some (GoError.HTTPError resp.StatusCode msg)) := by
  refine ⟨?_, ?_, ?_, ?_, ?_, ?_⟩
  · intro hcr hdo hst
    have hev := StartConjoined_events json r s c key req resp hcr hdo
    have hmem : Event.Do req (Result.ok resp) ∈
        (StartConjoined json r (World.fresh s) c key).2.events := by
      rw [hev]
      simp
    have h := StartConjoined_of_do json r s c key req resp hmem
    rw [if_pos (show resp.StatusCode ≠ StatusOK from hst)] at h
    exact ⟨by rw [hev]; rfl, _, h⟩
  · intro hcr hdo hst
    have hev := AbortConjoined_events json r s c key conjoinedIdentifier req resp hcr hdo
    have hmem : Event.Do req (Result.ok resp) ∈
        (AbortConjoined json r (World.fresh s) c key conjoinedIdentifier).2.events := by
      rw [hev]
      simp
    have h := AbortConjoined_of_do json r s c key conjoinedIdentifier req resp hmem
    rw [if_pos (show resp.StatusCode ≠ StatusOK from hst)] at h
    exact ⟨by rw [hev]; rfl, _, h⟩
  · intro hcr hdo hst
    have hev := FinishConjoined_events json r s c key conjoinedIdentifier req resp hcr hdo
    have hmem : Event.Do req (Result.ok resp) ∈
        (FinishConjoined json r (World.fresh s) c key conjoinedIdentifier).2.events := by
      rw [hev]
      simp
    have h := FinishConjoined_of_do json r s c key conjoinedIdentifier req resp hmem
    rw [if_pos (show resp.StatusCode ≠ StatusOK from hst)] at h
    exact ⟨by rw [hev]; rfl, _, h⟩
  · intro hcr hdo hst
    have hev := Archive_events json r s c key conjoinedParams contentLength requestBody
      pathA req resp hpathA hcr hdo
    have hmem : Event.Do { req with ContentLength := contentLength } (Result.ok resp) ∈
        (Archive json r (World.fresh s) c key conjoinedParams contentLength
          requestBody).2.events := by
      rw [hev]
      simp
    obtain ⟨msg, h⟩ := Archive_of_do json r s c key conjoinedParams contentLength
      requestBody _ resp hmem
    rw [if_pos (show resp.StatusCode ≠ StatusOK from hst)] at h
    exact ⟨by rw [hev]; rfl, msg, h⟩
  · intro hm hu hcr hdo hst
    have hev := Retrieve_events r s c key p pathR req sent resp hm hu hpathR hcr hsent hdo
    have hmem : Event.Do sent (Result.ok resp) ∈
        (Retrieve r (World.fresh s) c key p).2.events := by
      rw [hev]
      simp
    obtain ⟨msg, h⟩ := Retrieve_of_do r s c key p sent resp hmem
    have hst2 : resp.StatusCode ≠
        (if p.SliceOffset > 0 ∨ p.SliceSize > 0 then StatusPartialContent else StatusOK) :=
      hst
    rw [if_pos hst2] at h
    exact ⟨by rw [hev]; rfl, msg, h⟩
  · intro hcr hdo hst
    have hev := DeleteVersion_events json r s c key versionIdentifier pathD req resp
      hpathD hcr hdo
    have hmem : Event.Do req (Result.ok resp) ∈
        (DeleteVersion json r (World.fresh s) c key versionIdentifier).2.events := by
      rw [hev]
      simp
    obtain ⟨msg, h⟩ := DeleteVersion_of_do json r s c key versionIdentifier req resp hmem
    rw [if_pos (show resp.StatusCode ≠ StatusOK from hst)] at h
    exact ⟨by rw [hev]; rfl, msg, h⟩

theorem unexpected_status_is_HTTPError_witness :
    (∃ msg, (StartConjoined sampleJson
        (sampleRequester (Result.ok (sampleResponse 404 0 (lit ""))))
        (World.fresh 0) (lit "coll") (lit "test key")).1 =
      (lit "", some (GoError.HTTPError 404 msg))) ∧
    (∃ msg, (AbortConjoined sampleJson
        (sampleRequester (Result.ok (sampleResponse 404 0 (lit ""))))
        (World.fresh 0) (lit "coll") (lit "test key") (lit "abc")).1 =
      some (GoError.HTTPError 404 msg)) ∧
    (∃ msg, (FinishConjoined sampleJson
        (sampleRequester (Result.ok (sampleResponse 404 0 (lit ""))))
        (World.fresh 0) (lit "coll") (lit "test key") (lit "abc")).1 =
      some (GoError.HTTPError 404 msg)) ∧
    (∃ msg, (Archive sampleJson
        (sampleRequester (Result.ok (sampleResponse 404 0 (lit ""))))
        (World.fresh 0) (lit "coll") (lit "test key") none 9 (some (lit "test body"))).1 =
      (lit "", some (GoError.HTTPError 404 msg))) ∧
    (∃ msg, (Retrieve
        (sampleRequester (Result.ok (sampleResponse 404 0 (lit ""))))
        (World.fresh 0) (lit "coll") (lit "test key")
        { VersionID := lit "", SliceOffset := 0, SliceSize := 0,
          ModifiedSince := none, UnmodifiedSince := none }).1 =
      (none, some (GoError.HTTPError 404 msg))) ∧
    (∃ msg, (DeleteVersion sampleJson
        (sampleRequester (Result.ok (sampleResponse 404 0 (lit ""))))
        (World.fresh 0) (lit "coll") (lit "test key") (lit "")).1 =
      some (GoError.HTTPError 404 msg)) :=
  have h := fun (req : Request) =>
    unexpected_status_is_HTTPError sampleJson
      (sampleRequester (Result.ok (sampleResponse 404 0 (lit ""))))
      0 (lit "coll") (lit "test key") (lit "abc") (lit "") none 9 (some (lit "test body"))
      { VersionID := lit "", SliceOffset := 0, SliceSize := 0,
        ModifiedSince := none, UnmodifiedSince := none }
      (lit "/data/test+key") (lit "/data/test+key") (lit "/data/test+key")
      req req (sampleResponse 404 0 (lit ""))
      (by decide) (by decide) (by decide) (by simp)
  ⟨((h (sampleRequest (lit "POST")
        (lit "https://coll.nimbus.io/conjoined/test+key?action=start") none)).1
      (by decide) (by decide) (by decide)).2,
    ((h (sampleRequest (lit "POST")
        (lit "https://coll.nimbus.io/conjoined/test+key?action=abort&conjoined_identifier=abc")
        none)).2.1
      (by decide) (by decide) (by decide)).2,
    ((h (sampleRequest (lit "POST")
        (lit "https://coll.nimbus.io/conjoined/test+key?action=finish&conjoined_identifier=abc")
        none)).2.2.1
      (by decide) (by decide) (by decide)).2,
    ((h (sampleRequest (lit "POST") (lit "https://coll.nimbus.io/data/test+key")
        (some (lit "test body")))).2.2.2.1
      (by decide) (by decide) (by decide)).2,
    ((h (sampleRequest (lit "GET") (lit "https://coll.nimbus.io/data/test+key")
        none)).2.2.2.2.1
      (by decide) (by decide) (by decide) (by decide) (by decide)).2,
    ((h (sampleRequest (lit "DELETE") (lit "https://coll.nimbus.io/data/test+key")
        none)).2.2.2.2.2
      (by decide) (by decide) (by decide)).2⟩

/-- C6: for each of `AbortConjoined`, `FinishConjoined` and `DeleteVersion`:
let the requester answer the `CreateRequest` call of the operation with `req`
and the `Do` call on `req` with a response of status 200 whose body reads and
decodes as a JSON object of booleans (a map, so with distinct keys).  Then the
operation sends `req` through `Do` and returns nil exactly when the object
maps `success` to true; when it does not, in particular when it maps `success`
to false, the operation returns the error built by `fmt.Errorf` (so not an
`HTTPError`) with its own message. -/
theorem success_false_is_protocol_error {σ : Type} (json : Json) (r : Requester σ) (s : σ)
    (c key conjoinedIdentifier versionIdentifier pathD : GoString)
    (req : Request) (resp : Response) (responseBody : GoString)
    (resultMap : List (GoString × Bool))
    (hpathD : pathD =
      if versionIdentifier = lit "" then
        lit "/data/" ++ QueryEscape key
      else
        lit "/data/" ++ QueryEscape key ++ lit "?version=" ++ QueryEscape versionIdentifier)
    (hst : resp.StatusCode = 200)
    (hread : resp.Body.ReadAll = Result.ok responseBody)
    (hjson : json.UnmarshalBoolMap responseBody = Result.ok resultMap)
    (hkeys : (resultMap.map Prod.fst).Nodup) :
    ((createdBy r s c (lit "POST")
          (lit "/conjoined/" ++ QueryEscape key ++ lit "?action=abort&conjoined_identifier=" ++
            QueryEscape conjoinedIdentifier) none).1 = Result.ok req →
        (doneBy r s c (lit "POST")
          (lit "/conjoined/" ++ QueryEscape key ++ lit "?action=abort&conjoined_identifier=" ++
            QueryEscape conjoinedIdentifier) none req).1 = Result.ok resp →
        doCalls (AbortConjoined json r (World.fresh s) c key
          conjoinedIdentifier).2.events = [req] ∧
        ((AbortConjoined json r (World.fresh s) c key conjoinedIdentifier).1 = none ↔
          (lit "success", true) ∈ resultMap) ∧
        ((lit "success", true) ∉ resultMap →
          (AbortConjoined json r (World.fresh s) c key conjoinedIdentifier).1 =
            some (GoError.Errorf (lit "conjoined action=abort returned false"))) ∧
        ((lit "success", false) ∈ resultMap →
          (AbortConjoined json r (World.fresh s) c key conjoinedIdentifier).1 =
            some (GoError.Errorf (lit "conjoined action=abort returned false")))) ∧
      ((createdBy r s c (lit "POST")
          (lit "/conjoined/" ++ QueryEscape key ++ lit "?action=finish&conjoined_identifier=" ++
            QueryEscape conjoinedIdentifier) none).1 = Result.ok req →
        (doneBy r s c (lit "POST")
          (lit "/conjoined/" ++ QueryEscape key ++ lit "?action=finish&conjoined_identifier=" ++
            QueryEscape conjoinedIdentifier) none req).1 = Result.ok resp →
        doCalls (FinishConjoined json r (World.fresh s) c key
          conjoinedIdentifier).2.events = [req] ∧
        ((FinishConjoined json r (World.fresh s) c key conjoinedIdentifier).1 = none ↔
          (lit "success", true) ∈ resultMap) ∧
        ((lit "success", true) ∉ resultMap →
          (FinishConjoined json r (World.fresh s) c key conjoinedIdentifier).1 =
            some (GoError.Errorf (lit "conjoined action=finish returned false"))) ∧
        ((lit "success", false) ∈ resultMap →
          (FinishConjoined json r (World.fresh s) c key conjoinedIdentifier).1 =
            some (GoError.Errorf (lit "conjoined action=finish returned false")))) ∧
      ((createdBy r s c (lit "DELETE") pathD none).1 = Result.ok req →
        (doneBy r s c (lit "DELETE") pathD none req).1 = Result.ok resp →
        doCalls (DeleteVersion json r (World.fresh s) c key
          versionIdentifier).2.events = [req] ∧
        ((DeleteVersion json r (World.fresh s) c key versionIdentifier).1 = none ↔
          (lit "success", true) ∈ resultMap) ∧
        ((lit "success", true) ∉ resultMap →
          (DeleteVersion json r (World.fresh s) c key versionIdentifier).1 =
            some (GoError.Errorf (lit "unexpected \x27false\x27 for \x27success\x27"))) ∧
        ((lit "success", false) ∈ resultMap →
          (DeleteVersion json r (World.fresh s) c key versionIdentifier).1 =
            some (GoError.Errorf (lit "unexpected \x27false\x27 for \x27success\x27")))) := by
  have hok : resp.StatusCode = StatusOK := hst
  have hiff := indexBool_eq_true_iff resultMap (lit "success") hkeys
  have hfalse : (lit "success", false) ∈ resultMap → (lit "success", true) ∉ resultMap := by
    intro hf ht
    have h1 := indexBool_of_mem resultMap (lit "success") false hkeys hf
    have h2 := indexBool_of_mem resultMap (lit "success") true hkeys ht
    rw [h1] at h2
    exact absurd h2 (by decide)
  refine ⟨?_, ?_, ?_⟩
  · intro hcr hdo
    have hev := AbortConjoined_events json r s c key conjoinedIdentifier req resp hcr hdo
    have hmem : Event.Do req (Result.ok resp) ∈
        (AbortConjoined json r (World.fresh s) c key conjoinedIdentifier).2.events := by
      rw [hev]
      simp
    have h := AbortConjoined_of_do json r s c key conjoinedIdentifier req resp hmem
    simp only [hok, ne_eq, not_true_eq_false, if_false, hread, hjson] at h
    have hnil : (AbortConjoined json r (World.fresh s) c key conjoinedIdentifier).1 = none ↔
        (lit "success", true) ∈ resultMap := by
      rw [h, ← hiff]
      cases indexBool resultMap (lit "success") <;> simp
    have herr : (lit "success", true) ∉ resultMap →
        (AbortConjoined json r (World.fresh s) c key conjoinedIdentifier).1 =
          some (GoError.Errorf (lit "conjoined action=abort returned false")) := by
      intro hnot
      rw [← hiff] at hnot
      rw [h]
      simp [hnot]
    exact ⟨by rw [hev]; rfl, hnil, herr, fun hf => herr (hfalse hf)⟩
  · intro hcr hdo
    have hev := FinishConjoined_events json r s c key conjoinedIdentifier req resp hcr hdo
    have hmem : Event.Do req (Result.ok resp) ∈
        (FinishConjoined json r (World.fresh s) c key conjoinedIdentifier).2.events := by
      rw [hev]
      simp
    have h := FinishConjoined_of_do json r s c key conjoinedIdentifier req resp hmem
    simp only [hok, ne_eq, not_true_eq_false, if_false, hread, hjson] at h
    have hnil : (FinishConjoined json r (World.fresh s) c key conjoinedIdentifier).1 = none ↔
        (lit "success", true) ∈ resultMap := by
      rw [h, ← hiff]
      cases indexBool resultMap (lit "success") <;> simp
    have herr : (lit "success", true) ∉ resultMap →
        (FinishConjoined json r (World.fresh s) c key conjoinedIdentifier).1 =
          some (GoError.Errorf (lit "conjoined action=finish returned false")) := by
      intro hnot
      rw [← hiff] at hnot
      rw [h]
      simp [hnot]
    exact ⟨by rw [hev]; rfl, hnil, herr, fun hf => herr (hfalse hf)⟩
  · intro hcr hdo
    have hev := DeleteVersion_events json r s c key versionIdentifier pathD req resp
      hpathD hcr hdo
    have hmem : Event.Do req (Result.ok resp) ∈
        (DeleteVersion json r (World.fresh s) c key versionIdentifier).2.events := by
      rw [hev]
      simp
    obtain ⟨msg, h⟩ := DeleteVersion_of_do json r s c key versionIdentifier req resp hmem
    simp only [hok, ne_eq, not_true_eq_false, if_false, hread, hjson] at h
    have hnil : (DeleteVersion json r (World.fresh s) c key versionIdentifier).1 = none ↔
        (lit "success", true) ∈ resultMap := by
      rw [h, ← hiff]
      cases indexBool resultMap (lit "success") <;> simp
    have herr : (lit "success", true) ∉ resultMap →
        (DeleteVersion json r (World.fresh s) c key versionIdentifier).1 =
          some (GoError.Errorf (lit "unexpected \x27false\x27 for \x27success\x27")) := by
      intro hnot
      rw [← hiff] at hnot
      rw [h]
      simp [hnot]
    exact ⟨by rw [hev]; rfl, hnil, herr, fun hf => herr (hfalse hf)⟩

theorem success_false_is_protocol_error_witness :
    (AbortConjoined sampleJson
        (sampleRequester (Result.ok (sampleResponse 200 17 (lit "\x7b\"success\": true\x7d"))))
        (World.fresh 0) (lit "coll") (lit "test key") (lit "abc")).1 = none ∧
    (FinishConjoined sampleJson
        (sampleRequester (Result.ok (sampleResponse 200 17 (lit "\x7b\"success\": true\x7d"))))
        (World.fresh 0) (lit "coll") (lit "test key") (lit "abc")).1 = none ∧
    (DeleteVersion sampleJson
        (sampleRequester (Result.ok (sampleResponse 200 17 (lit "\x7b\"success\": true\x7d"))))
        (World.fresh 0) (lit "coll") (lit "test key") (lit "")).1 = none ∧
    (AbortConjoined sampleJson
        (sampleRequester (Result.ok (sampleResponse 200 18 (lit "\x7b\"success\": false\x7d"))))
        (World.fresh 0) (lit "coll") (lit "test key") (lit "abc")).1 =
      some (GoError.Errorf (lit "conjoined action=abort returned false")) ∧
    (FinishConjoined sampleJson
        (sampleRequester (Result.ok (sampleResponse 200 18 (lit "\x7b\"success\": false\x7d"))))
        (World.fresh 0) (lit "coll") (lit "test key") (lit "abc")).1 =
      some (GoError.Errorf (lit "conjoined action=finish returned false")) ∧
    (DeleteVersion sampleJson
        (sampleRequester (Result.ok (sampleResponse 200 18 (lit "\x7b\"success\": false\x7d"))))
        (World.fresh 0) (lit "coll") (lit "test key") (lit "")).1 =
      some (GoError.Errorf (lit "unexpected \x27false\x27 for \x27success\x27")) :=
  have ht := fun (req : Request) =>
    success_false_is_protocol_error sampleJson
      (sampleRequester (Result.ok (sampleResponse 200 17 (lit "\x7b\"success\": true\x7d"))))
      0 (lit "coll") (lit "test key") (lit "abc") (lit "") (lit "/data/test+key") req
      (sampleResponse 200 17 (lit "\x7b\"success\": true\x7d"))
      (lit "\x7b\"success\": true\x7d") [(lit "success", true)]
      (by decide) (by decide) (by decide) (by decide) (by decide)
  have hf := fun (req : Request) =>
    success_false_is_protocol_error sampleJson
      (sampleRequester (Result.ok (sampleResponse 200 18 (lit "\x7b\"success\": false\x7d"))))
      0 (lit "coll") (lit "test key") (lit "abc") (lit "") (lit "/data/test+key") req
      (sampleResponse 200 18 (lit "\x7b\"success\": false\x7d"))
      (lit "\x7b\"success\": false\x7d") [(lit "success", false)]
      (by decide) (by decide) (by decide) (by decide) (by decide)
  ⟨((ht (sampleRequest (lit "POST")
        (lit "https://coll.nimbus.io/conjoined/test+key?action=abort&conjoined_identifier=abc")
        none)).1 (by decide) (by decide)).2.1.mpr (by decide),
    ((ht (sampleRequest (lit "POST")
        (lit "https://coll.nimbus.io/conjoined/test+key?action=finish&conjoined_identifier=abc")
        none)).2.1 (by decide) (by decide)).2.1.mpr (by decide),
    ((ht (sampleRequest (lit "DELETE") (lit "https://coll.nimbus.io/data/test+key")
        none)).2.2 (by decide) (by decide)).2.1.mpr (by decide),
    ((hf (sampleRequest (lit "POST")
        (lit "https://coll.nimbus.io/conjoined/test+key?action=abort&conjoined_identifier=abc")
        none)).1 (by decide) (by decide)).2.2.2 (by decide),
    ((hf (sampleRequest (lit "POST")
        (lit "https://coll.nimbus.io/conjoined/test+key?action=finish&conjoined_identifier=abc")
        none)).2.1 (by decide) (by decide)).2.2.2 (by decide),
    ((hf (sampleRequest (lit "DELETE") (lit "https://coll.nimbus.io/data/test+key")
        none)).2.2 (by decide) (by decide)).2.2.2 (by decide)⟩

/-- C9: `DeleteKey` is `DeleteVersion` with the empty version identifier: same
result, same final state, same calls.  It sends one DELETE for
`/data/<escaped key>`, a path without a question mark, and `DeleteVersion`
appends `?version=<escaped id>` exactly when the identifier is not empty. -/
theorem DeleteKey_eq_DeleteVersion {σ : Type} (json : Json) (r : Requester σ) (w : World σ)
    (s : σ) (c key versionIdentifier : GoString) :
    DeleteKey json r w c key = DeleteVersion json r w c key (lit "") ∧
      createRequestCalls (DeleteKey json r (World.fresh s) c key).2.events =
        [(lit "DELETE", (r.CollectionHostName s c).1, lit "/data/" ++ QueryEscape key, none)] ∧
      byte '?' ∉ lit "/data/" ++ QueryEscape key ∧
      createRequestCalls
          (DeleteVersion json r (World.fresh s) c key versionIdentifier).2.events =
        [(lit "DELETE", (r.CollectionHostName s c).1,
          if versionIdentifier = lit "" then
            lit "/data/" ++ QueryEscape key
          else
            lit "/data/" ++ QueryEscape key ++ lit "?version=" ++ QueryEscape versionIdentifier,
          none)] := by
  refine ⟨rfl, ?_, ?_, DeleteVersion_createRequestCalls json r s c key versionIdentifier⟩
  · have h := DeleteVersion_createRequestCalls json r s c key (lit "")
    simpa [DeleteKey] using h
  · intro h
    rcases List.mem_append.mp h with h | h
    · exact absurd h (by decide)
    · rw [QueryEscape_eq_queryEncode] at h
      exact question_not_in_queryEncode key h

/-- C8, as the code has it: the key enters the path of every operation through
`url.QueryEscape`, which copies an unreserved byte (letter, digit, `-`, `_`,
`.`, `~`), writes a space as `+`, and replaces any other byte by `%` and its
two upper-case hex digits; the key `test key` is sent as `test+key`. -/
theorem key_query_escaped {σ : Type} (json : Json) (r : Requester σ) (s : σ)
    (c key conjoinedIdentifier versionIdentifier : GoString)
    (conjoinedParams : Option ConjoinedParams) (contentLength : Int)
    (requestBody : Option GoString) (p : RetrieveParams) :
    QueryEscape key = queryEncode key ∧
      queryEncode (lit "test key") = lit "test+key" ∧
      (∃ rest, createRequestCalls (StartConjoined json r (World.fresh s) c key).2.events =
        [(lit "POST", (r.CollectionHostName s c).1,
          lit "/conjoined/" ++ queryEncode key ++ rest, none)]) ∧
      (∃ rest, createRequestCalls
          (AbortConjoined json r (World.fresh s) c key conjoinedIdentifier).2.events =
        [(lit "POST", (r.CollectionHostName s c).1,
          lit "/conjoined/" ++ queryEncode key ++ rest, none)]) ∧
      (∃ rest, createRequestCalls
          (FinishConjoined json r (World.fresh s) c key conjoinedIdentifier).2.events =
        [(lit "POST", (r.CollectionHostName s c).1,
          lit "/conjoined/" ++ queryEncode key ++ rest, none)]) ∧
      (∃ rest, createRequestCalls
          (Archive json r (World.fresh s) c key conjoinedParams contentLength
            requestBody).2.events =
        [(lit "POST", (r.CollectionHostName s c).1,
          lit "/data/" ++ queryEncode key ++ rest, requestBody)]) ∧
      (p.ModifiedSince = none → p.UnmodifiedSince = none →
        ∃ rest, createRequestCalls (Retrieve r (World.fresh s) c key p).2.events =
          [(lit "GET", (r.CollectionHostName s c).1,
            lit "/data/" ++ queryEncode key ++ rest, none)]) ∧
      (∃ rest, createRequestCalls
          (DeleteVersion json r (World.fresh s) c key versionIdentifier).2.events =
        [(lit "DELETE", (r.CollectionHostName s c).1,
          lit "/data/" ++ queryEncode key ++ rest, none)]) := by
  refine ⟨QueryEscape_eq_queryEncode key, by decide, ?_, ?_, ?_, ?_, ?_, ?_⟩
  · exact ⟨lit "?action=start", by
      rw [StartConjoined_createRequestCalls, QueryEscape_eq_queryEncode]⟩
  · exact ⟨lit "?action=abort&conjoined_identifier=" ++ QueryEscape conjoinedIdentifier, by
      rw [AbortConjoined_createRequestCalls, QueryEscape_eq_queryEncode key,
        List.append_assoc]⟩
  · exact ⟨lit "?action=finish&conjoined_identifier=" ++ QueryEscape conjoinedIdentifier, by
      rw [FinishConjoined_createRequestCalls, QueryEscape_eq_queryEncode key,
        List.append_assoc]⟩
  · rw [Archive_createRequestCalls, QueryEscape_eq_queryEncode key]
    cases conjoinedParams with
    | none => exact ⟨[], by simp⟩
    | some params =>
      by_cases hid : params.ConjoinedIdentifier = lit ""
      · exact ⟨[], by simp [hid]⟩
      · exact ⟨lit "?conjoined_identifier=" ++ QueryEscape params.ConjoinedIdentifier ++
          lit "&conjoined_part=" ++ Itoa params.ConjoinedPart, by simp [hid]⟩
  · intro hm hu
    rw [Retrieve_createRequestCalls r s c key p hm hu, QueryEscape_eq_queryEncode key]
    by_cases hv : p.VersionID = lit ""
    · exact ⟨[], by simp [hv]⟩
    · exact ⟨lit "?version_identifier=" ++ QueryEscape p.VersionID, by simp [hv]⟩
  · rw [DeleteVersion_createRequestCalls, QueryEscape_eq_queryEncode key]
    by_cases hv : versionIdentifier = lit ""
    · exact ⟨[], by simp [hv]⟩
    · exact ⟨lit "?version=" ++ QueryEscape versionIdentifier, by simp [hv]⟩

theorem key_query_escaped_witness :
    ∃ rest, createRequestCalls
        (Retrieve (sampleRequester (Result.ok (sampleResponse 200 9 (lit "test body"))))
          (World.fresh 0) (lit "coll") (lit "test key")
          { VersionID := lit "", SliceOffset := 0, SliceSize := 0,
            ModifiedSince := none, UnmodifiedSince := none }).2.events =
      [(lit "GET", lit "coll.nimbus.io", lit "/data/" ++ queryEncode (lit "test key") ++ rest,
        none)] :=
  (key_query_escaped sampleJson
    (sampleRequester (Result.ok (sampleResponse 200 9 (lit "test body"))))
    0 (lit "coll") (lit "test key") (lit "") (lit "") none 9 none
    { VersionID := lit "", SliceOffset := 0, SliceSize := 0,
      ModifiedSince := none, UnmodifiedSince := none }).2.2.2.2.2.2.1 rfl rfl

/-- C8, as stated, fails at the key `test key`: percent-encoding would send
`test%20key`, but `Archive` asks for the path `/data/test+key`. -/
theorem key_space_not_percent_encoded :
    percentEncode (lit "test key") = lit "test%20key" ∧
      QueryEscape (lit "test key") ≠ percentEncode (lit "test key") ∧
      createRequestCalls
          (Archive sampleJson
            (sampleRequester (Result.ok (sampleResponse 200 9 (lit "test body"))))
            (World.fresh 0) (lit "coll") (lit "test key") none 9
            (some (lit "test body"))).2.events =
        [(lit "POST", lit "coll.nimbus.io", lit "/data/test+key", some (lit "test body"))] := by
  decide

end Nimbusapi
